import Mathlib

/-!
Data-availability proof example: scan ranges, commitment lookup, proof assembly.

A shallow embedding of `contracts/blobstreamX.go` (`challengeWindowBlockRanges`,
`GetCommitmentEvent`) and of `GetProof` in `main.go`.

* Go's `uint64` values are natural numbers; every operation that can overflow carries an
  explicit `% 2 ^ 64`. `int64` and `*big.Int` values are integers.
* Remote collaborators (the Ethereum client, the contract bindings, the Tendermint RPC
  client) are records holding the answer each call gives.
* A Go call with results `(value, error)` ends in an `Outcome`: the pair it returns, or a
  run-time panic or fatal error, after which the call does not return.
* The memory of the executing machine is a parameter: `maxLen`, the number of ranges the
  slice of scan ranges can hold.
-/

namespace DAProofExample

/-! ## Go values -/

/-- A Go `error` value: one handed back by a collaborator, one built with `fmt.Errorf`
around a cause (`%w`), or one of the two messages `GetCommitmentEvent` formats itself. -/
inductive Error where
  | rpc (msg : String)
  | wrapped (msg : String) (cause : Error)
  | invalidBlockRange
  | noCommitmentFound (height : Int) (lastCommitHeight : Nat)
  deriving DecidableEq, Repr

/-- The end of a call of a Go function with results `(value, error)`: the returned pair
(`none` is `nil`), or a run-time panic or fatal error (division by zero, a slice shorter
than an array, out of memory), after which the call does not return. -/
inductive Outcome (α : Type) where
  | returned (value : Option α) (err : Option Error)
  | panicked (reason : String)
  deriving DecidableEq, Repr

/-- The Go conversion `int64(u)` of a `uint64`: the same 64 bits read as two's complement. -/
def int64OfUint64 (u : Nat) : Int :=
  if u % 2 ^ 64 < 2 ^ 63 then ((u % 2 ^ 64 : Nat) : Int) else ((u % 2 ^ 64 : Nat) : Int) - 2 ^ 64

/-- The Go conversion `uint64(i)` of an `int64`. -/
def uint64OfInt64 (i : Int) : Nat :=
  (i % 2 ^ 64).toNat

/-- The method `(*big.Int).Uint64`: the low 64 bits of the absolute value. -/
def bigUint64 (x : Int) : Nat :=
  x.natAbs % 2 ^ 64

/-- A byte slice. -/
abbrev Bytes := List UInt8

/-- The Go conversion `*(*[32]byte)(b)` of a slice to an array: it panics (`none`) on a slice
shorter than 32 bytes and otherwise copies the first 32 bytes. -/
def bytes32 (b : Bytes) : Option Bytes :=
  if b.length < 32 then none else some (b.take 32)

/-! ## Settlement chain: collaborators of `contracts/blobstreamX.go` -/

/-- Modelled from the spec: the generated contract binding
`BlobstreamXDataCommitmentStored`, whose Go declaration is not among the sources. It is the
spec's CommitmentEvent, with `StartBlock`, `EndBlock` and `ProofNonce`. The source converts
`StartBlock` and `EndBlock` with `int64(...)` and compares `EndBlock` with a `uint64`, so
both are `uint64`; `ProofNonce` is the `*big.Int` stored in the proof's `RootNonce`. -/
structure BlobstreamXDataCommitmentStored where
  ProofNonce : Nat
  StartBlock : Nat
  EndBlock : Nat
  deriving DecidableEq, Repr

/-- The Go alias `type commitment = *blobstreamx.BlobstreamXDataCommitmentStored`. -/
abbrev commitment := BlobstreamXDataCommitmentStored

/-- Modelled from the spec: the event iterator a filter query returns (generated binding,
not among the sources), the spec's ordered events with a way to report the end of the
events and a query error. `Next()` delivers `events` one by one and then answers false; `Error()`
then reports `failure`. -/
structure DataCommitmentStoredIterator where
  events : List BlobstreamXDataCommitmentStored
  failure : Option Error

/-- Modelled from the spec: the contract binding `*blobstreamx.BlobstreamX` (generated, not
among the sources), the spec's `filterCommitmentEvents(startBlock, endBlock)`: the answer of
`FilterDataCommitmentStored` for the filter options `Start` and `End`. -/
structure BlobstreamX where
  FilterDataCommitmentStored : Nat → Nat → Except Error DataCommitmentStoredIterator

/-- Modelled from the spec: the library client `*ethclient.Client`, the spec's
`currentBlockNumber()`: the answer of `BlockNumber`, a `uint64`. -/
structure EthClient where
  BlockNumber : Except Error Nat

/-- Modelled from the spec: the contract binding `*challenge.Challenge` (generated, not
among the sources), the spec's `challengeWindowSeconds()`: the answer of `ChallengeWindow`,
which the source handles as a `*big.Int`; it is a number of seconds, never negative. -/
structure Challenge where
  ChallengeWindow : Except Error Nat

/-! ## `challengeWindowBlockRanges` -/

/-- The local `blockSize := uint64(10000)`. -/
def blockSize : Nat := 10000

/-- The largest length a `[][]uint64` can reach in Go: the runtime refuses to allocate more
than `2 ^ 48` bytes for one object, and each element of the slice, a slice header, takes 24
bytes. -/
def maxSliceLen : Nat := 2 ^ 48 / 24

/-- The number of ranges the slice `blockRanges` can hold during a run: `maxLen` is what the
memory of the executing machine allows, and no machine allows more than `maxSliceLen`. -/
def capacity (maxLen : Nat) : Nat := min maxLen maxSliceLen

/-- The chunking loop of `challengeWindowBlockRanges` (blobstreamX.go, lines 89-93), in
`uint64` arithmetic:
`for startBlock+blockSize < currentBlock { append; startBlock += blockSize + 1 }`
followed by the append of the trailing range `{startBlock, currentBlock}`.
Each `append` needs room for one more range: once `blockRanges` holds `capacity maxLen`
ranges the run dies out of memory and the loop returns nothing (`none`). -/
def chunkLoop (maxLen startBlock currentBlock : Nat) (blockRanges : List (List Nat)) :
    Option (List (List Nat)) :=
  if (startBlock + blockSize) % 2 ^ 64 < currentBlock % 2 ^ 64 then
    if blockRanges.length < capacity maxLen then
      chunkLoop maxLen ((startBlock + (blockSize + 1)) % 2 ^ 64) currentBlock
        (blockRanges ++ [[startBlock, (startBlock + blockSize) % 2 ^ 64]])
    else none
  else
    if blockRanges.length < capacity maxLen then
      some (blockRanges ++ [[startBlock, currentBlock]])
    else none
termination_by capacity maxLen - blockRanges.length
decreasing_by
  rename_i h
  simp only [List.length_append, List.length_singleton]
  omega

/-- The function `challengeWindowBlockRanges` (blobstreamX.go, lines 64-96), run on a
machine whose memory holds `maxLen` ranges. The window is multiplied by 1000 and divided by
`blockTime` with `big.Int.Div` (Euclidean; it panics on a zero divisor), the quotient is cut
to 64 bits by `Uint64()`, and `startBlock := currentBlock - numBlocksToScan.Uint64()` is an
unchecked `uint64` subtraction. When the loop runs out of memory the call does not
return. -/
def challengeWindowBlockRanges (maxLen : Nat) (blockTime : Int) (eth : EthClient)
    (challenge : Challenge) : Outcome (List (List Nat)) :=
  match challenge.ChallengeWindow with
  | .error err => .returned none (some (.wrapped "failed to get challenge window" err))
  | .ok window =>
    if blockTime = 0 then .panicked "division by zero"
    else
      let windowsMs : Int := (window : Int) * 1000
      let numBlocksToScan : Int := Int.ediv windowsMs blockTime
      match eth.BlockNumber with
      | .error err =>
        .returned none (some (.wrapped "failed to get current block number" err))
      | .ok currentBlock =>
        let startBlock := (currentBlock % 2 ^ 64 + 2 ^ 64 - bigUint64 numBlocksToScan) % 2 ^ 64
        match chunkLoop maxLen startBlock (currentBlock % 2 ^ 64) [] with
        | some blockRanges => .returned (some blockRanges) none
        | none => .panicked "out of memory"

/-! ## `GetCommitmentEvent` -/

/-- The coverage test of `GetCommitmentEvent` (line 52):
`int64(e.StartBlock) <= height && height < int64(e.EndBlock)`. -/
def covers (height : Int) (e : BlobstreamXDataCommitmentStored) : Bool :=
  decide (int64OfUint64 e.StartBlock ≤ height) && decide (height < int64OfUint64 e.EndBlock)

/-- The inner loop `for events.Next()` (lines 46-55) over the events an iterator delivers:
it raises `lastCommitHeight` to the event's `EndBlock` and stops at the first covering
event. The result is that event, if any, and `lastCommitHeight` after the loop. -/
def scanEvents (height : Int) :
    List BlobstreamXDataCommitmentStored → Nat → Option BlobstreamXDataCommitmentStored × Nat
  | [], lastCommitHeight => (none, lastCommitHeight)
  | e :: rest, lastCommitHeight =>
    let lastCommitHeight := if e.EndBlock > lastCommitHeight then e.EndBlock else lastCommitHeight
    if covers height e then (some e, lastCommitHeight)
    else scanEvents height rest lastCommitHeight

/-- The outer loop `for _, scanRange := range scanRanges` (lines 31-59) and the final
not-found error (line 61). -/
def scanRangesLoop (bstream : BlobstreamX) (height : Int) :
    List (List Nat) → Nat → Outcome commitment
  | [], lastCommitHeight =>
    .returned none (some (.noCommitmentFound height lastCommitHeight))
  | scanRange :: rest, lastCommitHeight =>
    match scanRange with
    | [start, stop] =>
      match bstream.FilterDataCommitmentStored start stop with
      | .error err => .returned none (some (.wrapped "failed to filter events" err))
      | .ok events =>
        match scanEvents height events.events lastCommitHeight with
        | (some e, _) => .returned (some e) none
        | (none, lastCommitHeight) =>
          match events.failure with
          | some err => .returned none (some err)
          | none => scanRangesLoop bstream height rest lastCommitHeight
    | _ => .returned none (some .invalidBlockRange)


/-- The function `GetCommitmentEvent` (blobstreamX.go, lines 16-62), run on a machine whose
memory holds `maxLen` ranges. -/
def GetCommitmentEvent (maxLen : Nat) (blockTime : Int) (eth : EthClient)
    (challenge : Challenge) (bstream : BlobstreamX) (height : Int) : Outcome commitment :=
  match challengeWindowBlockRanges maxLen blockTime eth challenge with
  | .panicked reason => .panicked reason
  | .returned _ (some err) =>
    .returned none (some (.wrapped "failed to get challenge window block ranges" err))
  | .returned scanRanges none => scanRangesLoop bstream height (scanRanges.getD []) 0

/-! ## Data-availability layer: collaborators of `GetProof` -/

/-- Modelled from the spec: the generated binding `CanonicalStateChainCelestiaPointer`,
whose Go declaration is not among the sources; the spec's Pointer with `Height`,
`ShareStart` and `ShareLen`. The source passes `Height` where a `uint64` is expected, reads
`ShareStart` with `Uint64()` (a `*big.Int`, never negative) and converts `ShareLen` with
`uint64(...)` (an unsigned integer). -/
structure CanonicalStateChainCelestiaPointer where
  Height : Nat
  ShareStart : Nat
  ShareLen : Nat
  deriving DecidableEq, Repr

/-- Modelled from the spec: the library type of the block inside a `ResultBlock`, with the
one field the program reads, the spec's data root. The source converts `DataHash` with
`*(*[32]byte)(...)`, so it is a byte slice, of any length. -/
structure Block where
  DataHash : Bytes
  deriving DecidableEq, Repr

/-- Modelled from the spec: the answer of the RPC call `Block`, the spec's
`blockAt(height)`. -/
structure ResultBlock where
  Block : Block
  deriving DecidableEq, Repr

/-- Modelled from the spec: the shares proof of the RPC call `ProveShares`, seen through
the only thing the program does with it: `VerifyProof` is the verdict of its own
verification predicate. -/
structure ShareProof where
  VerifyProof : Bool
  deriving DecidableEq, Repr

/-- Modelled from the spec: the library type `merkle.Proof`, the spec's
DataRootInclusionProof with `Aunts`, `Index` and `Total`. The source passes `Total` and
`Index` to `big.NewInt` (so they are `int64`) and converts each aunt with
`*(*[32]byte)(...)` (so `Aunts` is a slice of byte slices of any length). -/
structure MerkleProof where
  Total : Int
  Index : Int
  Aunts : List Bytes
  deriving DecidableEq, Repr

/-- Modelled from the spec: the answer of the RPC call `DataRootInclusionProof`. -/
structure ResultDataRootInclusionProof where
  Proof : MerkleProof
  deriving DecidableEq, Repr

/-- Modelled from the spec: the library client `*http.HTTP`, the spec's
data-availability-layer query interface: the answer of each of the three calls `GetProof`
makes, as a function of the call's arguments. An answer without error is non-nil. -/
structure HTTP where
  Block : Int → Except Error ResultBlock
  ProveShares : Nat → Nat → Nat → Except Error ShareProof
  DataRootInclusionProof : Nat → Nat → Nat → Except Error ResultDataRootInclusionProof

/-- A request sent to the Tendermint RPC client, with its arguments. -/
inductive Request where
  | Block (height : Int)
  | ProveShares (height startShare endShare : Nat)
  | DataRootInclusionProof (height start stop : Nat)
  deriving DecidableEq, Repr

/-- Modelled from the spec: the generated binding `challenge.DataRootTuple` (not among the
sources), the spec's `(Height, DataRoot)`. The source fills `Height` with a `*big.Int` and
`DataRoot` with a `[32]byte`. -/
structure DataRootTuple where
  Height : Int
  DataRoot : Bytes
  deriving DecidableEq, Repr

/-- Modelled from the spec: the generated binding `challenge.BinaryMerkleProof` (not among
the sources), the spec's `(SideNodes, Key, NumLeaves)`. The source fills `SideNodes` with a
`[][32]byte` and `Key` and `NumLeaves` with a `*big.Int` each. -/
structure BinaryMerkleProof where
  SideNodes : List Bytes
  Key : Int
  NumLeaves : Int
  deriving DecidableEq, Repr

/-- Modelled from the spec: the generated binding
`challenge.ChallengeDataAvailabilityChallengeDAProof` (not among the sources), the spec's
DAProof `(RootNonce, DataRootTuple, BinaryMerkleProof)`. -/
structure ChallengeDataAvailabilityChallengeDAProof where
  RootNonce : Nat
  DataRootTuple : DataRootTuple
  Proof : BinaryMerkleProof
  deriving DecidableEq, Repr

/-! ## `GetProof` -/

/-- The loop filling `sideNodes` (main.go, lines 131-134): each aunt is converted with
`*(*[32]byte)(aunt)`; `none` when a conversion panics. -/
def sideNodesOf : List Bytes → Option (List Bytes)
  | [] => some []
  | aunt :: rest =>
    match bytes32 aunt with
    | none => none
    | some node =>
      match sideNodesOf rest with
      | none => none
      | some nodes => some (node :: nodes)

/-- The function `GetProof` (main.go, lines 95-148), together with the requests it sent to
the RPC client, in order. After a failed `VerifyProof` the function returns `nil, err` with
the `err` of `ProveShares`, which is `nil` at that point (line 117). -/
def GetProof (trpc : HTTP) (pointer : CanonicalStateChainCelestiaPointer)
    (commitment : BlobstreamXDataCommitmentStored) :
    List Request × Outcome ChallengeDataAvailabilityChallengeDAProof :=
  let blockHeight : Int := int64OfUint64 pointer.Height
  let sent := [Request.Block blockHeight]
  match trpc.Block blockHeight with
  | .error err => (sent, .returned none (some err))
  | .ok blockRes =>
    let startShare := bigUint64 (pointer.ShareStart : Int)
    let endShare := (startShare + pointer.ShareLen % 2 ^ 64) % 2 ^ 64
    let sent := sent ++ [Request.ProveShares pointer.Height startShare endShare]
    match trpc.ProveShares pointer.Height startShare endShare with
    | .error err => (sent, .returned none (some err))
    | .ok sharesProofs =>
      if !sharesProofs.VerifyProof then (sent, .returned none none)
      else
        let sent := sent ++ [Request.DataRootInclusionProof (uint64OfInt64 blockHeight)
          commitment.StartBlock commitment.EndBlock]
        match trpc.DataRootInclusionProof (uint64OfInt64 blockHeight)
            commitment.StartBlock commitment.EndBlock with
        | .error err => (sent, .returned none (some err))
        | .ok dcProof =>
          match bytes32 blockRes.Block.DataHash with
          | none => (sent, .panicked "slice shorter than array")
          | some dataRoot =>
            match sideNodesOf dcProof.Proof.Aunts with
            | none => (sent, .panicked "slice shorter than array")
            | some sideNodes =>
              (sent, .returned (some
                { RootNonce := commitment.ProofNonce
                  DataRootTuple := { Height := blockHeight, DataRoot := dataRoot }
                  Proof :=
                    { SideNodes := sideNodes
                      Key := dcProof.Proof.Index
                      NumLeaves := dcProof.Proof.Total } }) none)

/-! ## Vocabulary of the specification -/

/-- The specification's `numBlocksToScan = floor(windowSeconds * 1000 / avgBlockTimeMs)`. -/
def numBlocksToScan (window : Nat) (blockTime : Int) : Int :=
  Int.fdiv ((window : Int) * 1000) blockTime

/-- Two consecutive scan ranges in ascending order: the second starts after the first
ends. -/
def rangeBefore (r q : List Nat) : Prop :=
  ∃ a b c d, r = [a, b] ∧ q = [c, d] ∧ b < c

/-- The specification's coverage test `StartBlock ≤ targetHeight < EndBlock`, on the
unsigned block numbers. -/
def inInterval (height : Int) (e : BlobstreamXDataCommitmentStored) : Prop :=
  (e.StartBlock : Int) ≤ height ∧ height < (e.EndBlock : Int)

instance (height : Int) (e : BlobstreamXDataCommitmentStored) :
    Decidable (inInterval height e) := by
  unfold inInterval
  infer_instance

/-- The events in scan order: range after range in list order, and within a range the
events in the order the query delivers them. -/
def scannedEvents (bstream : BlobstreamX) :
    List (List Nat) → List BlobstreamXDataCommitmentStored
  | [] => []
  | [start, stop] :: rest =>
    (match bstream.FilterDataCommitmentStored start stop with
      | .ok events => events.events
      | .error _ => []) ++ scannedEvents bstream rest
  | _ :: rest => scannedEvents bstream rest

/-- Every range is a pair whose filter query succeeds and whose iterator ends without
error. -/
def queriesSucceed (bstream : BlobstreamX) (ranges : List (List Nat)) : Prop :=
  ∀ r ∈ ranges, ∃ start stop events, r = [start, stop]
    ∧ bstream.FilterDataCommitmentStored start stop = .ok events ∧ events.failure = none

/-- The maximum `EndBlock` over a list of events, 0 for the empty list. -/
def maxEndBlock (events : List BlobstreamXDataCommitmentStored) : Nat :=
  (events.map (fun e => e.EndBlock)).foldr max 0

/-- Two events with disjoint half-open intervals `[StartBlock, EndBlock)`. -/
def disjointIntervals (x y : BlobstreamXDataCommitmentStored) : Prop :=
  x.EndBlock ≤ y.StartBlock ∨ y.EndBlock ≤ x.StartBlock

instance (x y : BlobstreamXDataCommitmentStored) : Decidable (disjointIntervals x y) := by
  unfold disjointIntervals
  infer_instance

/-- The error, if any, with which the RPC client answers a request. -/
def fetchError (trpc : HTTP) : Request → Option Error
  | .Block height =>
    match trpc.Block height with
    | .error err => some err
    | .ok _ => none
  | .ProveShares height startShare endShare =>
    match trpc.ProveShares height startShare endShare with
    | .error err => some err
    | .ok _ => none
  | .DataRootInclusionProof height start stop =>
    match trpc.DataRootInclusionProof height start stop with
    | .error err => some err
    | .ok _ => none

/-- Membership of a block number in a scan range read as the closed interval
`[start, end]`. -/
def inClosedRange (x : Nat) : List Nat → Bool
  | [a, b] => decide (a ≤ x) && decide (x ≤ b)
  | _ => false

/-- Two consecutive scan ranges without a gap: the second starts at the end of the first
plus one. -/
def rangeFollows (r q : List Nat) : Prop :=
  ∃ a b d, r = [a, b] ∧ q = [b + 1, d]

/-- Two scan ranges that, read as closed intervals, share no block number. -/
def disjointRanges (r q : List Nat) : Prop :=
  ∀ x, ¬ (inClosedRange x r = true ∧ inClosedRange x q = true)

/-- The number of further iterations after which the loop test value `t`, which grows by
`blockSize + 1` modulo `2 ^ 64` per iteration, is `2 ^ 64 - 1`: the variant of the chunking
loop. The constant is the inverse of `10001` modulo `2 ^ 64`. -/
def loopMeasure (t : Nat) : Nat :=
  ((2 ^ 64 - 1 - t % 2 ^ 64) * 12857939499832945137) % 2 ^ 64

theorem mul_inv_cancel64 (x : Nat) :
    ((x * 10001) % 2 ^ 64 * 12857939499832945137) % 2 ^ 64 = x % 2 ^ 64 := by
  rw [Nat.mod_mul_mod, Nat.mul_assoc, Nat.mul_mod]
  norm_num

theorem inv_mul_cancel64 (x : Nat) :
    ((x * 12857939499832945137) % 2 ^ 64 * 10001) % 2 ^ 64 = x % 2 ^ 64 := by
  rw [Nat.mod_mul_mod, Nat.mul_assoc, Nat.mul_mod]
  norm_num

theorem loopMeasure_aux (u v k j : Nat)
    (hk : k = (u * 12857939499832945137) % 2 ^ 64)
    (hj : j = (v * 12857939499832945137) % 2 ^ 64)
    (huv : (v + 10001) % 2 ^ 64 = u % 2 ^ 64) (hu0 : 0 < u) (hu : u < 2 ^ 64) : j < k := by
  have h1 := inv_mul_cancel64 u
  have h2 := inv_mul_cancel64 v
  rw [← hk] at h1
  rw [← hj] at h2
  have hkM : k < 2 ^ 64 := by rw [hk]; exact Nat.mod_lt _ (by norm_num)
  have hjM : j < 2 ^ 64 := by rw [hj]; exact Nat.mod_lt _ (by norm_num)
  have h3 : ((j + 1) * 10001) % 2 ^ 64 = (k * 10001) % 2 ^ 64 := by omega
  have h4 := mul_inv_cancel64 (j + 1)
  have h5 := mul_inv_cancel64 k
  rw [h3, h5] at h4
  have h6 : k ≠ 0 := by
    intro h0
    rw [h0] at h1
    omega
  omega

/-- One more iteration of the chunking loop lowers the variant: the loop test
`t < currentBlock` rules out `t = 2 ^ 64 - 1`. -/
theorem loopMeasure_step (t c : Nat) (h : t % 2 ^ 64 < c % 2 ^ 64) :
    loopMeasure (t + 10001) < loopMeasure t := by
  apply loopMeasure_aux (2 ^ 64 - 1 - t % 2 ^ 64) (2 ^ 64 - 1 - (t + 10001) % 2 ^ 64) _ _ rfl rfl
  · omega
  · omega
  · omega

/-- The list of ranges the chunking loop builds when no `append` fails, a device of the
specification: it tells how many ranges a run needs. The loop of the program is
`chunkLoop`, which returns this list when the machine can hold it and nothing otherwise
(`chunkLoop_eq_ideal`). -/
def idealRanges (startBlock currentBlock : Nat) (blockRanges : List (List Nat)) :
    List (List Nat) :=
  if (startBlock + blockSize) % 2 ^ 64 < currentBlock % 2 ^ 64 then
    idealRanges ((startBlock + (blockSize + 1)) % 2 ^ 64) currentBlock
      (blockRanges ++ [[startBlock, (startBlock + blockSize) % 2 ^ 64]])
  else
    blockRanges ++ [[startBlock, currentBlock]]
termination_by loopMeasure (startBlock + blockSize)
decreasing_by
  rename_i h
  have hstep := loopMeasure_step (startBlock + blockSize) currentBlock h
  have e : ((startBlock + (blockSize + 1)) % 2 ^ 64 + blockSize) % 2 ^ 64
      = (startBlock + blockSize + 10001) % 2 ^ 64 := by
    unfold blockSize
    omega
  unfold loopMeasure at hstep ⊢
  rw [e]
  exact hstep

/-! ## Example collaborators -/

/-- A BlobstreamX contract whose every filter query delivers the given events and ends
without error. -/
def blobstreamDelivering (events : List BlobstreamXDataCommitmentStored) : BlobstreamX :=
  ⟨fun _ _ => .ok ⟨events, none⟩⟩

/-- A Tendermint RPC client that answers every `Block` call with a block of the given data
hash, every `ProveShares` call with a shares proof of the given verdict, and every
`DataRootInclusionProof` call with the given Merkle proof. -/
def trpcAnswering (dataHash : Bytes) (verdict : Bool) (proof : MerkleProof) : HTTP :=
  ⟨fun _ => .ok ⟨⟨dataHash⟩⟩, fun _ _ _ => .ok ⟨verdict⟩, fun _ _ _ => .ok ⟨proof⟩⟩

/-- A BlobstreamX contract that delivers the event `(100, 200)` for ranges starting at
block 0 and fails every other filter query. -/
def blobstreamFailingLater : BlobstreamX :=
  ⟨fun start _ =>
    if start = 0 then .ok ⟨[⟨1, 100, 200⟩], none⟩ else .error (.rpc "filter failed")⟩

/-- A BlobstreamX contract that delivers the event `(100, 200)` for ranges starting at
block 0 and the event `(120, 180)` for every other range. -/
def blobstreamMatchingLater : BlobstreamX :=
  ⟨fun start _ =>
    if start = 0 then .ok ⟨[⟨1, 100, 200⟩], none⟩ else .ok ⟨[⟨3, 120, 180⟩], none⟩⟩

/-- A Tendermint RPC client that gives the same three answers whatever the arguments of
the calls. -/
def trpcConstant (block : Except Error ResultBlock) (shares : Except Error ShareProof)
    (inclusion : Except Error ResultDataRootInclusionProof) : HTTP :=
  ⟨fun _ => block, fun _ _ _ => shares, fun _ _ _ => inclusion⟩

/-- A BlobstreamX contract that delivers the event `(100, 200)` for ranges starting at
block 0 and the event `(200, 300)` for every other range. -/
def blobstreamSplit : BlobstreamX :=
  ⟨fun start _ => if start = 0 then .ok ⟨[⟨1, 100, 200⟩], none⟩ else .ok ⟨[⟨2, 200, 300⟩], none⟩⟩

/-! ## The window scanner -/

theorem bigUint64_quotient (window : Nat) (blockTime : Int) (hbt : 0 < blockTime) :
    bigUint64 (Int.ediv ((window : Int) * 1000) blockTime)
      = (numBlocksToScan window blockTime).toNat % 2 ^ 64 := by
  unfold numBlocksToScan bigUint64
  rw [Int.fdiv_eq_ediv _ (le_of_lt hbt)]
  have h : 0 ≤ Int.ediv ((window : Int) * 1000) blockTime :=
    Int.ediv_nonneg (by positivity) (le_of_lt hbt)
  congr 1
  show (Int.ediv ((window : Int) * 1000) blockTime).natAbs
    = (Int.ediv ((window : Int) * 1000) blockTime).toNat
  omega

theorem maxSliceLen_eq : maxSliceLen = 11728124029610 := by decide

theorem capacity_le_maxSliceLen (maxLen : Nat) : capacity maxLen ≤ maxSliceLen :=
  Nat.min_le_right _ _

theorem idealRanges_append_left (startBlock currentBlock : Nat)
    (blockRanges : List (List Nat)) :
    ∀ pre : List (List Nat), idealRanges startBlock currentBlock (pre ++ blockRanges)
      = pre ++ idealRanges startBlock currentBlock blockRanges := by
  induction startBlock, currentBlock, blockRanges using idealRanges.induct with
  | case1 s c acc h ih =>
    intro pre
    rw [idealRanges, if_pos h, List.append_assoc, ih pre]
    conv_rhs => rw [idealRanges, if_pos h]
  | case2 s c acc h =>
    intro pre
    rw [idealRanges, if_neg h]
    conv_rhs => rw [idealRanges, if_neg h]
    simp

/-- The ranges already collected stay in front of what the loop adds. -/
theorem idealRanges_append (startBlock currentBlock : Nat) (blockRanges : List (List Nat)) :
    idealRanges startBlock currentBlock blockRanges
      = blockRanges ++ idealRanges startBlock currentBlock [] := by
  have h := idealRanges_append_left startBlock currentBlock [] blockRanges
  simpa using h

theorem idealRanges_done (s c : Nat) (h : ¬ (s + blockSize) % 2 ^ 64 < c % 2 ^ 64) :
    idealRanges s c [] = [[s, c]] := by
  rw [idealRanges, if_neg h]
  simp

theorem idealRanges_step (s c : Nat) (h : (s + blockSize) % 2 ^ 64 < c % 2 ^ 64) :
    idealRanges s c []
      = [s, (s + blockSize) % 2 ^ 64] :: idealRanges ((s + (blockSize + 1)) % 2 ^ 64) c [] := by
  rw [idealRanges, if_pos h, idealRanges_append]
  simp

theorem idealRanges_head (s c : Nat) : ∃ stop rest, idealRanges s c [] = [s, stop] :: rest := by
  by_cases h : (s + blockSize) % 2 ^ 64 < c % 2 ^ 64
  · exact ⟨_, _, idealRanges_step s c h⟩
  · exact ⟨c, [], idealRanges_done s c h⟩

theorem idealRanges_length_gt (s c : Nat) (acc : List (List Nat)) :
    acc.length < (idealRanges s c acc).length := by
  obtain ⟨stop, rest, h⟩ := idealRanges_head s c
  rw [idealRanges_append, h]
  simp only [List.length_append, List.length_cons]
  omega

/-- The loop of the program returns the list of `idealRanges` when the machine can hold it,
and nothing otherwise. -/
theorem chunkLoop_eq_ideal (maxLen : Nat) (startBlock currentBlock : Nat)
    (blockRanges : List (List Nat)) :
    chunkLoop maxLen startBlock currentBlock blockRanges
      = if (idealRanges startBlock currentBlock blockRanges).length ≤ capacity maxLen then
          some (idealRanges startBlock currentBlock blockRanges)
        else none := by
  induction startBlock, currentBlock, blockRanges using idealRanges.induct with
  | case1 s c acc h ih =>
    have e : idealRanges s c acc
        = idealRanges ((s + (blockSize + 1)) % 2 ^ 64) c
            (acc ++ [[s, (s + blockSize) % 2 ^ 64]]) := by
      conv_lhs => rw [idealRanges, if_pos h]
    rw [chunkLoop, if_pos h]
    by_cases hl : acc.length < capacity maxLen
    · rw [if_pos hl, ih, e]
    · have hgt := idealRanges_length_gt s c acc
      rw [if_neg hl, if_neg (by omega)]
  | case2 s c acc h =>
    have e : idealRanges s c acc = acc ++ [[s, c]] := by
      conv_lhs => rw [idealRanges, if_neg h]
    rw [chunkLoop, if_neg h, e]
    simp only [List.length_append, List.length_singleton]
    by_cases hl : acc.length < capacity maxLen
    · rw [if_pos hl, if_pos (by omega)]
    · rw [if_neg hl, if_neg (by omega)]

theorem chunkLoop_outcome (maxLen s c : Nat) :
    (match chunkLoop maxLen s c [] with
      | some blockRanges => Outcome.returned (some blockRanges) none
      | none => Outcome.panicked "out of memory")
      = if (idealRanges s c []).length ≤ capacity maxLen then
          Outcome.returned (some (idealRanges s c [])) none
        else Outcome.panicked "out of memory" := by
  rw [chunkLoop_eq_ideal]
  split_ifs <;> rfl

/-- With both calls answered and a positive block time the function returns the ranges of
`idealRanges`, started at the wrapped difference, when the machine can hold them, and dies
out of memory otherwise. -/
theorem challengeWindowBlockRanges_ok (maxLen window : Nat) (blockTime : Int)
    (currentBlock : Nat) (hbt : 0 < blockTime) :
    challengeWindowBlockRanges maxLen blockTime ⟨.ok currentBlock⟩ ⟨.ok window⟩
      = if (idealRanges
            ((currentBlock % 2 ^ 64 + 2 ^ 64 - (numBlocksToScan window blockTime).toNat % 2 ^ 64)
              % 2 ^ 64) (currentBlock % 2 ^ 64) []).length ≤ capacity maxLen then
          .returned (some (idealRanges
            ((currentBlock % 2 ^ 64 + 2 ^ 64 - (numBlocksToScan window blockTime).toNat % 2 ^ 64)
              % 2 ^ 64) (currentBlock % 2 ^ 64) [])) none
        else .panicked "out of memory" := by
  have h0 : blockTime ≠ 0 := ne_of_gt hbt
  simp only [challengeWindowBlockRanges, h0, if_false, bigUint64_quotient window blockTime hbt]
  exact chunkLoop_outcome maxLen _ _

/-- With both calls answered and a non-zero block time the function returns the ranges of
`idealRanges` when the machine can hold them, and dies out of memory otherwise. -/
theorem challengeWindowBlockRanges_nonzero (maxLen window : Nat) (blockTime : Int)
    (currentBlock : Nat) (hbt : blockTime ≠ 0) :
    challengeWindowBlockRanges maxLen blockTime ⟨.ok currentBlock⟩ ⟨.ok window⟩
      = if (idealRanges
            ((currentBlock % 2 ^ 64 + 2 ^ 64
              - bigUint64 (Int.ediv ((window : Int) * 1000) blockTime)) % 2 ^ 64)
            (currentBlock % 2 ^ 64) []).length ≤ capacity maxLen then
          .returned (some (idealRanges
            ((currentBlock % 2 ^ 64 + 2 ^ 64
              - bigUint64 (Int.ediv ((window : Int) * 1000) blockTime)) % 2 ^ 64)
            (currentBlock % 2 ^ 64) [])) none
        else .panicked "out of memory" := by
  simp only [challengeWindowBlockRanges, hbt, if_false]
  exact chunkLoop_outcome maxLen _ _

/-- The evaluation of the function at an input whose ranges are known and fit. -/
theorem challengeWindowBlockRanges_eval (maxLen window : Nat) (blockTime : Int)
    (currentBlock n : Nat) (ranges : List (List Nat)) (hbt : 0 < blockTime)
    (hn : numBlocksToScan window blockTime = (n : Int))
    (hranges : idealRanges ((currentBlock % 2 ^ 64 + 2 ^ 64 - n % 2 ^ 64) % 2 ^ 64)
      (currentBlock % 2 ^ 64) [] = ranges)
    (hfit : ranges.length ≤ capacity maxLen) :
    challengeWindowBlockRanges maxLen blockTime ⟨.ok currentBlock⟩ ⟨.ok window⟩
      = .returned (some ranges) none := by
  rw [challengeWindowBlockRanges_ok maxLen window blockTime currentBlock hbt, hn,
    Int.toNat_ofNat, hranges, if_pos hfit]

theorem challengeWindowBlockRanges_example (maxLen : Nat) (hmem : 0 < capacity maxLen) :
    challengeWindowBlockRanges maxLen 12000 ⟨.ok 20000⟩ ⟨.ok 86400⟩
      = .returned (some [[12800, 20000]]) none :=
  challengeWindowBlockRanges_eval maxLen 86400 12000 20000 7200 _ (by decide) (by decide)
    (by simp [idealRanges, blockSize]) hmem

/-- A loop iteration whose sum `startBlock + blockSize` stays below the current block does
not wrap. -/
theorem idealRanges_step_lt (s c : Nat) (hc : c < 2 ^ 64) (h : s + blockSize < c) :
    idealRanges s c [] = [s, s + blockSize] :: idealRanges (s + (blockSize + 1)) c [] := by
  have h1 : (s + blockSize) % 2 ^ 64 = s + blockSize := Nat.mod_eq_of_lt (by omega)
  have h2 : (s + (blockSize + 1)) % 2 ^ 64 = s + (blockSize + 1) := Nat.mod_eq_of_lt (by omega)
  have h3 : c % 2 ^ 64 = c := Nat.mod_eq_of_lt hc
  have hcond : (s + blockSize) % 2 ^ 64 < c % 2 ^ 64 := by rw [h1, h3]; exact h
  rw [idealRanges_step s c hcond, h1, h2]

/-- The loop ends when the sum `startBlock + blockSize` does not overflow and has reached
the current block. -/
theorem idealRanges_done_lt (s c : Nat) (hc : c < 2 ^ 64) (hs : s + blockSize < 2 ^ 64)
    (h : ¬ s + blockSize < c) : idealRanges s c [] = [[s, c]] := by
  have h1 : (s + blockSize) % 2 ^ 64 = s + blockSize := Nat.mod_eq_of_lt hs
  have h3 : c % 2 ^ 64 = c := Nat.mod_eq_of_lt hc
  apply idealRanges_done
  rw [h1, h3]; exact h

/-- As long as the start stays at or below the current block, `j` iterations of the loop
put `j` ranges in front of what the loop returns from the start `s + 10001 * j`. -/
theorem idealRanges_skip : ∀ (j s c : Nat), c < 2 ^ 64 → s + 10001 * j ≤ c →
    ∃ pre, pre.length = j ∧ idealRanges s c [] = pre ++ idealRanges (s + 10001 * j) c []
  | 0, s, c, _, _ => ⟨[], rfl, by simp⟩
  | j + 1, s, c, hc, h => by
    have hb : blockSize = 10000 := rfl
    obtain ⟨pre, hlen, hpre⟩ := idealRanges_skip j (s + (blockSize + 1)) c hc (by omega)
    refine ⟨[s, s + blockSize] :: pre, by simp [hlen], ?_⟩
    rw [idealRanges_step_lt s c hc (by omega), hpre]
    have e : s + (blockSize + 1) + 10001 * j = s + 10001 * (j + 1) := by omega
    rw [e]
    rfl

/-- When the loop test overflows on the way from `s` up to `c`, the start wraps around and
a second pass begins near block 0: the run needs more ranges than any machine can hold. -/
theorem idealRanges_overflow_long (s c : Nat) (hs : s ≤ c) (hc : c < 2 ^ 64)
    (hov : ¬ c - (c - s) % 10001 + blockSize < 2 ^ 64) :
    maxSliceLen < (idealRanges s c []).length := by
  have hb : blockSize = 10000 := rfl
  have hm := maxSliceLen_eq
  obtain ⟨pre, _, hpre⟩ := idealRanges_skip ((c - s) / 10001) s c hc (by omega)
  have hf : s + 10001 * ((c - s) / 10001) = c - (c - s) % 10001 := by omega
  rw [hf] at hpre
  have hcond : (c - (c - s) % 10001 + blockSize) % 2 ^ 64 < c % 2 ^ 64 := by omega
  have hstep := idealRanges_step _ _ hcond
  obtain ⟨pre2, hlen2, hpre2⟩ := idealRanges_skip 1844489958375115
    ((c - (c - s) % 10001 + (blockSize + 1)) % 2 ^ 64) c hc (by omega)
  rw [hpre, hstep, hpre2]
  simp only [List.length_append, List.length_cons, hlen2]
  omega

/-- Without overflow every range of the loop is a pair inside `[s, c]` with
`start ≤ end`, and consecutive ranges ascend. -/
theorem idealRanges_ascending : ∀ (d s c : Nat), c - s ≤ d → s ≤ c → c < 2 ^ 64 →
    c - (c - s) % 10001 + blockSize < 2 ^ 64 →
    (∀ r ∈ idealRanges s c [], ∃ a b, r = [a, b] ∧ s ≤ a ∧ a ≤ b ∧ b ≤ c)
      ∧ (idealRanges s c []).Chain' rangeBefore := by
  intro d
  induction d with
  | zero =>
    intro s c hd hs hc hf
    have hb : blockSize = 10000 := rfl
    rw [idealRanges_done_lt s c hc (by omega) (by omega)]
    refine ⟨?_, List.chain'_singleton _⟩
    intro r hr
    simp only [List.mem_singleton] at hr
    exact ⟨s, c, hr, le_refl _, hs, le_refl _⟩
  | succ d ih =>
    intro s c hd hs hc hf
    have hb : blockSize = 10000 := rfl
    by_cases h : s + blockSize < c
    · rw [idealRanges_step_lt s c hc h]
      obtain ⟨hmem, hchain⟩ := ih (s + (blockSize + 1)) c (by omega) (by omega) hc (by omega)
      refine ⟨?_, ?_⟩
      · intro r hr
        rcases List.mem_cons.mp hr with rfl | hr
        · exact ⟨s, s + blockSize, rfl, le_refl _, by omega, by omega⟩
        · obtain ⟨a, b, rfl, h1, h2, h3⟩ := hmem r hr
          exact ⟨a, b, rfl, by omega, h2, h3⟩
      · rw [List.chain'_cons']
        refine ⟨?_, hchain⟩
        intro y hy
        obtain ⟨a, b, rfl, h1, _, _⟩ := hmem y (List.mem_of_mem_head? hy)
        exact ⟨s, s + blockSize, a, b, rfl, rfl, by omega⟩
    · rw [idealRanges_done_lt s c hc (by omega) h]
      refine ⟨?_, List.chain'_singleton _⟩
      intro r hr
      simp only [List.mem_singleton] at hr
      exact ⟨s, c, hr, le_refl _, hs, le_refl _⟩

/-- Without overflow the loop returns `(c - s) / 10001 + 1` ranges. -/
theorem idealRanges_length : ∀ (d s c : Nat), c - s ≤ d → s ≤ c → c < 2 ^ 64 →
    c - (c - s) % 10001 + blockSize < 2 ^ 64 →
    (idealRanges s c []).length = (c - s) / 10001 + 1 := by
  intro d
  induction d with
  | zero =>
    intro s c hd hs hc hf
    have hb : blockSize = 10000 := rfl
    rw [idealRanges_done_lt s c hc (by omega) (by omega)]
    simp only [List.length_singleton]
    omega
  | succ d ih =>
    intro s c hd hs hc hf
    have hb : blockSize = 10000 := rfl
    by_cases h : s + blockSize < c
    · rw [idealRanges_step_lt s c hc h, List.length_cons,
        ih (s + (blockSize + 1)) c (by omega) (by omega) hc (by omega)]
      omega
    · rw [idealRanges_done_lt s c hc (by omega) h]
      simp only [List.length_singleton]
      omega

/-- Without overflow the ranges of the loop are chunks `(a, a + 10000)` up to the last one,
each starts one block after the previous one ends, they are pairwise disjoint, and a block
number lies in exactly one of them when it is in `[s, c]` and in none otherwise. -/
theorem idealRanges_partition : ∀ (d s c : Nat), c - s ≤ d → s ≤ c → c < 2 ^ 64 →
    c - (c - s) % 10001 + blockSize < 2 ^ 64 →
    (∀ r ∈ (idealRanges s c []).dropLast, ∃ a, r = [a, a + blockSize])
      ∧ (idealRanges s c []).Chain' rangeFollows
      ∧ (idealRanges s c []).Pairwise disjointRanges
      ∧ ∀ x, (idealRanges s c []).countP (inClosedRange x)
          = if s ≤ x ∧ x ≤ c then 1 else 0 := by
  intro d
  induction d with
  | zero =>
    intro s c hd hs hc hf
    have hb : blockSize = 10000 := rfl
    rw [idealRanges_done_lt s c hc (by omega) (by omega)]
    refine ⟨by simp, List.chain'_singleton _, List.pairwise_singleton _ _, ?_⟩
    intro x
    simp only [List.countP_cons, List.countP_nil, inClosedRange, Bool.and_eq_true,
      decide_eq_true_eq, zero_add]
  | succ d ih =>
    intro s c hd hs hc hf
    have hb : blockSize = 10000 := rfl
    by_cases h : s + blockSize < c
    · obtain ⟨hchunk, hchain, hpair, hcount⟩ :=
        ih (s + (blockSize + 1)) c (by omega) (by omega) hc (by omega)
      obtain ⟨hmem, _⟩ :=
        idealRanges_ascending d (s + (blockSize + 1)) c (by omega) (by omega) hc (by omega)
      obtain ⟨stop, rest, hhead⟩ := idealRanges_head (s + (blockSize + 1)) c
      rw [idealRanges_step_lt s c hc h]
      refine ⟨?_, ?_, ?_, ?_⟩
      · intro r hr
        rw [List.dropLast_cons_of_ne_nil (by rw [hhead]; simp)] at hr
        rcases List.mem_cons.mp hr with rfl | hr
        · exact ⟨s, rfl⟩
        · exact hchunk r hr
      · rw [hhead] at hchain ⊢
        rw [List.chain'_cons]
        exact ⟨⟨s, s + blockSize, stop, rfl, rfl⟩, hchain⟩
      · rw [List.pairwise_cons]
        refine ⟨?_, hpair⟩
        intro q hq x hx
        obtain ⟨a, b, rfl, h1, _, _⟩ := hmem q hq
        simp only [inClosedRange, Bool.and_eq_true, decide_eq_true_eq] at hx
        omega
      · intro x
        rw [List.countP_cons, hcount x]
        simp only [inClosedRange, Bool.and_eq_true, decide_eq_true_eq]
        split_ifs <;> omega
    · rw [idealRanges_done_lt s c hc (by omega) h]
      refine ⟨by simp, List.chain'_singleton _, List.pairwise_singleton _ _, ?_⟩
      intro x
      simp only [List.countP_cons, List.countP_nil, inClosedRange, Bool.and_eq_true,
        decide_eq_true_eq, zero_add]

/-- Every range the loop appends has two elements, whatever the arithmetic does. -/
theorem idealRanges_pairs (startBlock currentBlock : Nat) (blockRanges : List (List Nat)) :
    (∀ r ∈ blockRanges, r.length = 2) →
      ∀ r ∈ idealRanges startBlock currentBlock blockRanges, r.length = 2 := by
  induction startBlock, currentBlock, blockRanges using idealRanges.induct with
  | case1 s c acc h ih =>
    intro hacc
    rw [idealRanges, if_pos h]
    apply ih
    intro r hr
    rcases List.mem_append.mp hr with hr | hr
    · exact hacc r hr
    · simp only [List.mem_singleton] at hr
      rw [hr]; rfl
  | case2 s c acc h =>
    intro hacc
    rw [idealRanges, if_neg h]
    intro r hr
    rcases List.mem_append.mp hr with hr | hr
    · exact hacc r hr
    · simp only [List.mem_singleton] at hr
      rw [hr]; rfl

theorem startBlock_nowrap (currentBlock : Nat) (n : Int)
    (hn : n ≤ (currentBlock : Int)) (hcb : currentBlock < 2 ^ 64) :
    (currentBlock % 2 ^ 64 + 2 ^ 64 - n.toNat % 2 ^ 64) % 2 ^ 64 = currentBlock - n.toNat := by
  omega

theorem le_capacity (k maxLen : Nat) (h1 : k ≤ maxLen) (h2 : k ≤ 11728124029610) :
    k ≤ capacity maxLen := by
  unfold capacity
  rw [maxSliceLen_eq]
  omega

/-- With a positive block time and `numBlocksToScan ≤ currentBlock` the loop starts at
`currentBlock - numBlocksToScan`. -/
theorem challengeWindowBlockRanges_start (maxLen window : Nat) (blockTime : Int)
    (currentBlock : Nat) (hbt : 0 < blockTime) (hcb : currentBlock < 2 ^ 64)
    (hn : numBlocksToScan window blockTime ≤ (currentBlock : Int)) :
    challengeWindowBlockRanges maxLen blockTime ⟨.ok currentBlock⟩ ⟨.ok window⟩
      = if (idealRanges (currentBlock - (numBlocksToScan window blockTime).toNat)
            currentBlock []).length ≤ capacity maxLen then
          .returned (some (idealRanges
            (currentBlock - (numBlocksToScan window blockTime).toNat) currentBlock [])) none
        else .panicked "out of memory" := by
  rw [challengeWindowBlockRanges_ok maxLen window blockTime currentBlock hbt,
    startBlock_nowrap currentBlock _ hn hcb, Nat.mod_eq_of_lt hcb]

/-- A returned list, for `numBlocksToScan ≤ currentBlock`, is the list of `idealRanges`; it
fits the machine, and the loop test did not overflow on the way: a run whose loop test
overflows needs more ranges than any machine holds. -/
theorem challengeWindowBlockRanges_inv (maxLen window : Nat) (blockTime : Int)
    (currentBlock : Nat) (ranges : List (List Nat)) (err : Option Error)
    (hbt : 0 < blockTime) (hcb : currentBlock < 2 ^ 64)
    (hn : numBlocksToScan window blockTime ≤ (currentBlock : Int))
    (h : challengeWindowBlockRanges maxLen blockTime ⟨.ok currentBlock⟩ ⟨.ok window⟩
      = .returned (some ranges) err) :
    err = none
      ∧ ranges = idealRanges (currentBlock - (numBlocksToScan window blockTime).toNat)
          currentBlock []
      ∧ currentBlock - (numBlocksToScan window blockTime).toNat % 10001 + blockSize < 2 ^ 64
      ∧ ranges.length ≤ capacity maxLen := by
  rw [challengeWindowBlockRanges_start maxLen window blockTime currentBlock hbt hcb hn] at h
  by_cases hfit : (idealRanges (currentBlock - (numBlocksToScan window blockTime).toNat)
      currentBlock []).length ≤ capacity maxLen
  · rw [if_pos hfit] at h
    simp only [Outcome.returned.injEq, Option.some.injEq] at h
    obtain ⟨hr, he⟩ := h
    refine ⟨he.symm, hr.symm, ?_, by rw [← hr]; exact hfit⟩
    by_contra hov
    have hsub : currentBlock - (currentBlock - (numBlocksToScan window blockTime).toNat)
        = (numBlocksToScan window blockTime).toNat := by omega
    have hlong := idealRanges_overflow_long
      (currentBlock - (numBlocksToScan window blockTime).toNat) currentBlock (by omega) hcb
      (by rw [hsub]; exact hov)
    have hcap := capacity_le_maxSliceLen maxLen
    omega
  · rw [if_neg hfit] at h
    exact absurd h (by simp)

/-- The number of ranges of a run with `numBlocksToScan ≤ currentBlock` whose loop test does
not overflow. -/
theorem idealRanges_count (currentBlock : Nat) (n : Int) (hcb : currentBlock < 2 ^ 64)
    (hn : n ≤ (currentBlock : Int))
    (hov : currentBlock - n.toNat % 10001 + blockSize < 2 ^ 64) :
    (idealRanges (currentBlock - n.toNat) currentBlock []).length = n.toNat / 10001 + 1 := by
  have hsub : currentBlock - (currentBlock - n.toNat) = n.toNat := by omega
  rw [idealRanges_length currentBlock (currentBlock - n.toNat) currentBlock (by omega)
    (by omega) hcb (by rw [hsub]; exact hov), hsub]

/-- The call returns when the loop test does not overflow and the machine can hold the
ranges. -/
theorem challengeWindowBlockRanges_fits (maxLen window : Nat) (blockTime : Int)
    (currentBlock : Nat) (hbt : 0 < blockTime) (hcb : currentBlock < 2 ^ 64)
    (hn : numBlocksToScan window blockTime ≤ (currentBlock : Int))
    (hov : currentBlock - (numBlocksToScan window blockTime).toNat % 10001 + blockSize
      < 2 ^ 64)
    (hfit : (numBlocksToScan window blockTime).toNat / 10001 + 1 ≤ capacity maxLen) :
    challengeWindowBlockRanges maxLen blockTime ⟨.ok currentBlock⟩ ⟨.ok window⟩
      = .returned (some (idealRanges
          (currentBlock - (numBlocksToScan window blockTime).toNat) currentBlock [])) none := by
  rw [challengeWindowBlockRanges_start maxLen window blockTime currentBlock hbt hcb hn,
    if_pos (by rw [idealRanges_count currentBlock _ hcb hn hov]; exact hfit)]

/-- The call dies out of memory when the loop test overflows or the machine cannot hold the
ranges. -/
theorem challengeWindowBlockRanges_crash (maxLen window : Nat) (blockTime : Int)
    (currentBlock : Nat) (hbt : 0 < blockTime) (hcb : currentBlock < 2 ^ 64)
    (hn : numBlocksToScan window blockTime ≤ (currentBlock : Int))
    (h : ¬ (currentBlock - (numBlocksToScan window blockTime).toNat % 10001 + blockSize
        < 2 ^ 64
      ∧ (numBlocksToScan window blockTime).toNat / 10001 + 1 ≤ capacity maxLen)) :
    challengeWindowBlockRanges maxLen blockTime ⟨.ok currentBlock⟩ ⟨.ok window⟩
      = .panicked "out of memory" := by
  rw [challengeWindowBlockRanges_start maxLen window blockTime currentBlock hbt hcb hn]
  by_cases hov : currentBlock - (numBlocksToScan window blockTime).toNat % 10001 + blockSize
      < 2 ^ 64
  · rw [idealRanges_count currentBlock _ hcb hn hov, if_neg (fun hfit => h ⟨hov, hfit⟩)]
  · have hsub : currentBlock - (currentBlock - (numBlocksToScan window blockTime).toNat)
        = (numBlocksToScan window blockTime).toNat := by omega
    have hlong := idealRanges_overflow_long
      (currentBlock - (numBlocksToScan window blockTime).toNat) currentBlock (by omega) hcb
      (by rw [hsub]; exact hov)
    have hcap := capacity_le_maxSliceLen maxLen
    rw [if_neg (by omega)]

theorem challengeWindowBlockRanges_example_two (maxLen : Nat) (hmem : 2 ≤ capacity maxLen) :
    challengeWindowBlockRanges maxLen 12000 ⟨.ok 20000⟩ ⟨.ok 240000⟩
      = .returned (some [[0, 10000], [10001, 20000]]) none :=
  challengeWindowBlockRanges_eval maxLen 240000 12000 20000 20000 _ (by decide) (by decide)
    (by simp [idealRanges, blockSize]) hmem

theorem challengeWindowBlockRanges_example_three (maxLen : Nat) (hmem : 3 ≤ capacity maxLen) :
    challengeWindowBlockRanges maxLen 12000 ⟨.ok 30000⟩ ⟨.ok 360000⟩
      = .returned (some [[0, 10000], [10001, 20001], [20002, 30000]]) none :=
  challengeWindowBlockRanges_eval maxLen 360000 12000 30000 30000 _ (by decide) (by decide)
    (by simp [idealRanges, blockSize]) hmem

/-- At the top of the `uint64` range the loop test overflows whatever the window: with
window 0 and current block `2 ^ 64 - 1` the call dies out of memory on every machine. -/
theorem challengeWindowBlockRanges_top (maxLen : Nat) :
    challengeWindowBlockRanges maxLen 12000 ⟨.ok 18446744073709551615⟩ ⟨.ok 0⟩
      = .panicked "out of memory" :=
  challengeWindowBlockRanges_crash maxLen 0 12000 18446744073709551615 (by decide)
    (by decide) (by decide) (fun h => absurd h.1 (by decide))

/-- C2, amended: for every window, every positive block time and every current block (a
`uint64`) with `numBlocksToScan ≤ currentBlock`, the ranges returned by
`challengeWindowBlockRanges` are pairs with `start ≤ end`, and each range starts after the
previous range ends. -/
theorem challengeWindowBlockRanges_ascending (maxLen window : Nat) (blockTime : Int)
    (currentBlock : Nat) (ranges : List (List Nat)) (err : Option Error)
    (hbt : 0 < blockTime) (hcb : currentBlock < 2 ^ 64)
    (hn : numBlocksToScan window blockTime ≤ (currentBlock : Int))
    (h : challengeWindowBlockRanges maxLen blockTime ⟨.ok currentBlock⟩ ⟨.ok window⟩
      = .returned (some ranges) err) :
    (∀ r ∈ ranges, ∃ a b, r = [a, b] ∧ a ≤ b) ∧ ranges.Chain' rangeBefore := by
  obtain ⟨_, hr, hov, _⟩ :=
    challengeWindowBlockRanges_inv maxLen window blockTime currentBlock ranges err hbt hcb hn h
  have hsub : currentBlock - (currentBlock - (numBlocksToScan window blockTime).toNat)
      = (numBlocksToScan window blockTime).toNat := by omega
  obtain ⟨hmem, hchain⟩ := idealRanges_ascending currentBlock
    (currentBlock - (numBlocksToScan window blockTime).toNat) currentBlock (by omega) (by omega)
    hcb (by rw [hsub]; exact hov)
  rw [hr]
  refine ⟨?_, hchain⟩
  intro r hmr
  obtain ⟨a, b, rfl, _, h2, _⟩ := hmem r hmr
  exact ⟨a, b, rfl, h2⟩

theorem challengeWindowBlockRanges_ascending_witness :
    (0 : Int) < 12000 ∧ 30000 < 2 ^ 64
    ∧ numBlocksToScan 360000 12000 ≤ ((30000 : Nat) : Int)
    ∧ challengeWindowBlockRanges 1000 12000 ⟨.ok 30000⟩ ⟨.ok 360000⟩
        = .returned (some [[0, 10000], [10001, 20001], [20002, 30000]]) none
    ∧ (∀ r ∈ [[0, 10000], [10001, 20001], [20002, 30000]], ∃ a b, r = [a, b] ∧ a ≤ b)
    ∧ [[0, 10000], [10001, 20001], [20002, 30000]].Chain' rangeBefore :=
  ⟨by decide, by decide, by decide, challengeWindowBlockRanges_example_three 1000 (by decide),
    challengeWindowBlockRanges_ascending 1000 360000 12000 30000 _ none (by decide)
      (by decide) (by decide) (challengeWindowBlockRanges_example_three 1000 (by decide))⟩

/-- C2 as stated fails when the subtraction wraps: with window 120060 s, block time
12000 ms and current block 10 (`numBlocksToScan = 10005 > 10`), on every machine with room
for two ranges the ranges returned are `(2 ^ 64 - 9995, 5)` and `(6, 10)`, and the first
has its start above its end. -/
theorem challengeWindowBlockRanges_ascending_counterexample :
    numBlocksToScan 120060 12000 = 10005
    ∧ ¬ (18446744073709541621 ≤ 5)
    ∧ ∀ maxLen, 2 ≤ maxLen →
        challengeWindowBlockRanges maxLen 12000 ⟨.ok 10⟩ ⟨.ok 120060⟩
          = .returned (some [[18446744073709541621, 5], [6, 10]]) none :=
  ⟨by decide, by decide, fun maxLen hmem =>
    challengeWindowBlockRanges_eval maxLen 120060 12000 10 10005 _ (by decide) (by decide)
      (by simp [idealRanges, blockSize]) (le_capacity 2 maxLen hmem (by decide))⟩

/-- C3, what the code does: there is no window check. For every window, every positive
block time and every current block (a `uint64`), so also when
`numBlocksToScan ≥ currentBlock`, whatever `challengeWindowBlockRanges` returns is not an
error: it is a list of ranges with a nil error, and the first range starts at the
wrapped-around `uint64` difference `currentBlock - numBlocksToScan.Uint64()`, which for
`numBlocksToScan > currentBlock` is not the block where the challenge window closed. -/
theorem challengeWindowBlockRanges_no_window_check (maxLen window : Nat) (blockTime : Int)
    (currentBlock : Nat) (value : Option (List (List Nat))) (err : Option Error)
    (hbt : 0 < blockTime) (hcb : currentBlock < 2 ^ 64)
    (h : challengeWindowBlockRanges maxLen blockTime ⟨.ok currentBlock⟩ ⟨.ok window⟩
      = .returned value err) :
    err = none
      ∧ ∃ stop rest, value = some
          ([(currentBlock + 2 ^ 64 - (numBlocksToScan window blockTime).toNat % 2 ^ 64) % 2 ^ 64,
            stop] :: rest) := by
  rw [challengeWindowBlockRanges_ok maxLen window blockTime currentBlock hbt,
    Nat.mod_eq_of_lt hcb] at h
  obtain ⟨stop, rest, hhead⟩ := idealRanges_head
    ((currentBlock + 2 ^ 64 - (numBlocksToScan window blockTime).toNat % 2 ^ 64) % 2 ^ 64)
    currentBlock
  split_ifs at h with hfit
  simp only [Outcome.returned.injEq] at h
  exact ⟨h.2.symm, stop, rest, by rw [← h.1, hhead]⟩

theorem challengeWindowBlockRanges_no_window_check_witness :
    (0 : Int) < 12000 ∧ 100 < 2 ^ 64
    ∧ numBlocksToScan 86400 12000 = 7200
    ∧ ((100 : Nat) : Int) ≤ numBlocksToScan 86400 12000
    ∧ challengeWindowBlockRanges 1000 12000 ⟨.ok 100⟩ ⟨.ok 86400⟩
        = .returned (some [[18446744073709544516, 100]]) none
    ∧ (none : Option Error) = none
    ∧ ∃ stop rest, some [[18446744073709544516, 100]] = some
        ([(100 + 2 ^ 64 - (numBlocksToScan 86400 12000).toNat % 2 ^ 64) % 2 ^ 64, stop]
          :: rest) :=
  ⟨by decide, by decide, by decide, by decide,
    challengeWindowBlockRanges_eval 1000 86400 12000 100 7200 _ (by decide) (by decide)
      (by simp [idealRanges, blockSize]) (by decide),
    challengeWindowBlockRanges_no_window_check 1000 86400 12000 100 _ none (by decide)
      (by decide)
      (challengeWindowBlockRanges_eval 1000 86400 12000 100 7200 _ (by decide) (by decide)
        (by simp [idealRanges, blockSize]) (by decide))⟩

/-- C10, amended: for every input with a positive block time where
`n = floor(windowSeconds * 1000 / avgBlockTimeMs)` satisfies `n ≤ 10000` and
`n ≤ currentBlock`, and where `currentBlock - n + 10000 < 2 ^ 64`,
`challengeWindowBlockRanges` returns exactly one range, `(currentBlock - n, currentBlock)`,
on every machine with room for one range. -/
theorem challengeWindowBlockRanges_single_range (maxLen window : Nat) (blockTime : Int)
    (currentBlock : Nat) (hbt : 0 < blockTime)
    (hn : numBlocksToScan window blockTime ≤ 10000)
    (hle : numBlocksToScan window blockTime ≤ (currentBlock : Int))
    (hov : currentBlock - (numBlocksToScan window blockTime).toNat + blockSize < 2 ^ 64)
    (hmem : 1 ≤ maxLen) :
    challengeWindowBlockRanges maxLen blockTime ⟨.ok currentBlock⟩ ⟨.ok window⟩
      = .returned (some
          [[currentBlock - (numBlocksToScan window blockTime).toNat, currentBlock]]) none := by
  have hb : blockSize = 10000 := rfl
  have hcb : currentBlock < 2 ^ 64 := by omega
  have hone : idealRanges (currentBlock - (numBlocksToScan window blockTime).toNat)
      currentBlock []
      = [[currentBlock - (numBlocksToScan window blockTime).toNat, currentBlock]] :=
    idealRanges_done_lt _ _ hcb hov (by omega)
  rw [challengeWindowBlockRanges_start maxLen window blockTime currentBlock hbt hcb hle, hone]
  exact if_pos (le_capacity 1 maxLen hmem (by decide))

theorem challengeWindowBlockRanges_single_range_witness :
    ((0 : Int) < 12000 ∧ numBlocksToScan 86400 12000 = 7200
      ∧ numBlocksToScan 86400 12000 ≤ 10000
      ∧ numBlocksToScan 86400 12000 ≤ ((20000 : Nat) : Int)
      ∧ 20000 - (numBlocksToScan 86400 12000).toNat + blockSize < 2 ^ 64
      ∧ challengeWindowBlockRanges 1000 12000 ⟨.ok 20000⟩ ⟨.ok 86400⟩
        = .returned (some [[12800, 20000]]) none)
    ∧ (numBlocksToScan 120000 12000 = 10000
      ∧ 18446744073709551615 - (numBlocksToScan 120000 12000).toNat + blockSize < 2 ^ 64
      ∧ challengeWindowBlockRanges 1000 12000 ⟨.ok 18446744073709551615⟩ ⟨.ok 120000⟩
        = .returned (some [[18446744073709541615, 18446744073709551615]]) none) :=
  ⟨⟨by decide, by decide, by decide, by decide, by decide,
      challengeWindowBlockRanges_single_range 1000 86400 12000 20000 (by decide) (by decide)
        (by decide) (by decide) (by decide)⟩,
    by decide, by decide,
    challengeWindowBlockRanges_single_range 1000 120000 12000 18446744073709551615
      (by decide) (by decide) (by decide) (by decide) (by decide)⟩

/-- C10 as stated fails in two ways. At the top of the `uint64` range the loop test
overflows: with window 0 (`n = 0`) and current block `2 ^ 64 - 1` the call dies out of
memory on every machine instead of returning one range. For a negative block time the
code subtracts the absolute value of the quotient: with window 86400 s, block time
-12000 ms and current block 20000, `n = -7200` is below both bounds, and the code returns
the range `(12800, 20000)`, not `(20000 - n, 20000) = (27200, 20000)`. -/
theorem challengeWindowBlockRanges_single_range_counterexample :
    (numBlocksToScan 0 12000 = 0
      ∧ ∀ maxLen, challengeWindowBlockRanges maxLen 12000 ⟨.ok 18446744073709551615⟩ ⟨.ok 0⟩
          = .panicked "out of memory")
    ∧ (numBlocksToScan 86400 (-12000) = -7200
      ∧ ∀ maxLen, 1 ≤ maxLen →
          challengeWindowBlockRanges maxLen (-12000) ⟨.ok 20000⟩ ⟨.ok 86400⟩
            = .returned (some [[12800, 20000]]) none) := by
  refine ⟨⟨by decide, challengeWindowBlockRanges_top⟩, by decide, ?_⟩
  intro maxLen hmem
  have hq : Int.ediv (((86400 : Nat) : Int) * 1000) (-12000) = -7200 := by decide
  have hs : (20000 % 2 ^ 64 + 2 ^ 64 - bigUint64 (-7200)) % 2 ^ 64 = 12800 := by decide
  have hc : (20000 : Nat) % 2 ^ 64 = 20000 := by decide
  have hone : idealRanges 12800 20000 [] = [[12800, 20000]] := by
    simp [idealRanges, blockSize]
  rw [challengeWindowBlockRanges_nonzero maxLen 86400 (-12000) 20000 (by decide), hq, hs, hc,
    hone]
  exact if_pos (le_capacity 1 maxLen hmem (by decide))

/-- C12: for every input with avgBlockTimeMs > 0 and
`n = floor(windowSeconds * 1000 / avgBlockTimeMs) ≤ currentBlock`, the ranges returned by
`challengeWindowBlockRanges` start at `currentBlock - n`, every range but the last is
`(s, s + 10000)`, and each range's start equals the previous range's end plus one; read as
closed intervals, the ranges are pairwise disjoint and every block number in
`[currentBlock - n, currentBlock]` lies in exactly one of them. -/
theorem challengeWindowBlockRanges_partition (maxLen window : Nat) (blockTime : Int)
    (currentBlock : Nat) (ranges : List (List Nat)) (err : Option Error)
    (hbt : 0 < blockTime) (hcb : currentBlock < 2 ^ 64)
    (hn : numBlocksToScan window blockTime ≤ (currentBlock : Int))
    (h : challengeWindowBlockRanges maxLen blockTime ⟨.ok currentBlock⟩ ⟨.ok window⟩
      = .returned (some ranges) err) :
    (∃ stop rest,
        ranges = [currentBlock - (numBlocksToScan window blockTime).toNat, stop] :: rest)
      ∧ (∀ r ∈ ranges.dropLast, ∃ s, r = [s, s + 10000])
      ∧ ranges.Chain' rangeFollows
      ∧ ranges.Pairwise disjointRanges
      ∧ (∀ x, currentBlock - (numBlocksToScan window blockTime).toNat ≤ x → x ≤ currentBlock →
          ranges.countP (inClosedRange x) = 1) := by
  obtain ⟨_, hr, hov, _⟩ :=
    challengeWindowBlockRanges_inv maxLen window blockTime currentBlock ranges err hbt hcb hn h
  have hsub : currentBlock - (currentBlock - (numBlocksToScan window blockTime).toNat)
      = (numBlocksToScan window blockTime).toNat := by omega
  obtain ⟨hchunk, hchain, hpair, hcount⟩ := idealRanges_partition currentBlock
    (currentBlock - (numBlocksToScan window blockTime).toNat) currentBlock (by omega) (by omega)
    hcb (by rw [hsub]; exact hov)
  rw [hr]
  refine ⟨idealRanges_head _ _, hchunk, hchain, hpair, ?_⟩
  intro x h1 h2
  rw [hcount x, if_pos ⟨h1, h2⟩]

theorem challengeWindowBlockRanges_partition_witness :
    (0 : Int) < 12000 ∧ 30000 < 2 ^ 64
    ∧ numBlocksToScan 360000 12000 ≤ ((30000 : Nat) : Int)
    ∧ challengeWindowBlockRanges 1000 12000 ⟨.ok 30000⟩ ⟨.ok 360000⟩
        = .returned (some [[0, 10000], [10001, 20001], [20002, 30000]]) none
    ∧ (∃ stop rest, [[0, 10000], [10001, 20001], [20002, 30000]]
        = [30000 - (numBlocksToScan 360000 12000).toNat, stop] :: rest)
    ∧ (∀ r ∈ [[0, 10000], [10001, 20001], [20002, 30000]].dropLast, ∃ s, r = [s, s + 10000])
    ∧ [[0, 10000], [10001, 20001], [20002, 30000]].Chain' rangeFollows
    ∧ [[0, 10000], [10001, 20001], [20002, 30000]].Pairwise disjointRanges
    ∧ (∀ x, 30000 - (numBlocksToScan 360000 12000).toNat ≤ x → x ≤ 30000 →
        [[0, 10000], [10001, 20001], [20002, 30000]].countP (inClosedRange x) = 1) :=
  ⟨by decide, by decide, by decide, challengeWindowBlockRanges_example_three 1000 (by decide),
    challengeWindowBlockRanges_partition 1000 360000 12000 30000 _ none (by decide)
      (by decide) (by decide) (challengeWindowBlockRanges_example_three 1000 (by decide))⟩

/-- C14, amended: for every input with avgBlockTimeMs > 0 and
`n = floor(windowSeconds * 1000 / avgBlockTimeMs) ≤ currentBlock`, the function returns
only lists of exactly `floor(n / 10001) + 1` ranges; the chunking loop terminates and the
function returns such a list when the loop test at the start of the last range does not
overflow (`currentBlock - n mod 10001 + 10000 < 2 ^ 64`) and the machine can hold
`floor(n / 10001) + 1` ranges, and in every other case the call dies out of memory. -/
theorem challengeWindowBlockRanges_count (maxLen window : Nat) (blockTime : Int)
    (currentBlock : Nat) (hbt : 0 < blockTime) (hcb : currentBlock < 2 ^ 64)
    (hn : numBlocksToScan window blockTime ≤ (currentBlock : Int)) :
    (∀ ranges err,
      challengeWindowBlockRanges maxLen blockTime ⟨.ok currentBlock⟩ ⟨.ok window⟩
        = .returned (some ranges) err →
      ranges.length = (numBlocksToScan window blockTime).toNat / 10001 + 1)
    ∧ (currentBlock - (numBlocksToScan window blockTime).toNat % 10001 + blockSize < 2 ^ 64 →
      (numBlocksToScan window blockTime).toNat / 10001 + 1 ≤ capacity maxLen →
      ∃ ranges, challengeWindowBlockRanges maxLen blockTime ⟨.ok currentBlock⟩ ⟨.ok window⟩
          = .returned (some ranges) none
        ∧ ranges.length = (numBlocksToScan window blockTime).toNat / 10001 + 1)
    ∧ (¬ (currentBlock - (numBlocksToScan window blockTime).toNat % 10001 + blockSize
          < 2 ^ 64
        ∧ (numBlocksToScan window blockTime).toNat / 10001 + 1 ≤ capacity maxLen) →
      challengeWindowBlockRanges maxLen blockTime ⟨.ok currentBlock⟩ ⟨.ok window⟩
        = .panicked "out of memory") := by
  refine ⟨?_, ?_, ?_⟩
  · intro ranges err h
    obtain ⟨_, hr, hov, _⟩ :=
      challengeWindowBlockRanges_inv maxLen window blockTime currentBlock ranges err hbt hcb
        hn h
    rw [hr, idealRanges_count currentBlock _ hcb hn hov]
  · intro hov hfit
    exact ⟨_, challengeWindowBlockRanges_fits maxLen window blockTime currentBlock hbt hcb hn
      hov hfit, idealRanges_count currentBlock _ hcb hn hov⟩
  · intro hno
    exact challengeWindowBlockRanges_crash maxLen window blockTime currentBlock hbt hcb hn hno

theorem challengeWindowBlockRanges_count_witness :
    (0 : Int) < 12000 ∧ 30000 < 2 ^ 64
    ∧ numBlocksToScan 360000 12000 ≤ ((30000 : Nat) : Int)
    ∧ (numBlocksToScan 360000 12000).toNat / 10001 + 1 = 3
    ∧ challengeWindowBlockRanges 1000 12000 ⟨.ok 30000⟩ ⟨.ok 360000⟩
        = .returned (some [[0, 10000], [10001, 20001], [20002, 30000]]) none
    ∧ (∀ ranges err,
      challengeWindowBlockRanges 1000 12000 ⟨.ok 30000⟩ ⟨.ok 360000⟩
        = .returned (some ranges) err →
      ranges.length = (numBlocksToScan 360000 12000).toNat / 10001 + 1)
    ∧ (30000 - (numBlocksToScan 360000 12000).toNat % 10001 + blockSize < 2 ^ 64 →
      (numBlocksToScan 360000 12000).toNat / 10001 + 1 ≤ capacity 1000 →
      ∃ ranges, challengeWindowBlockRanges 1000 12000 ⟨.ok 30000⟩ ⟨.ok 360000⟩
          = .returned (some ranges) none
        ∧ ranges.length = (numBlocksToScan 360000 12000).toNat / 10001 + 1)
    ∧ (¬ (30000 - (numBlocksToScan 360000 12000).toNat % 10001 + blockSize < 2 ^ 64
        ∧ (numBlocksToScan 360000 12000).toNat / 10001 + 1 ≤ capacity 1000) →
      challengeWindowBlockRanges 1000 12000 ⟨.ok 30000⟩ ⟨.ok 360000⟩
        = .panicked "out of memory") :=
  ⟨by decide, by decide, by decide, by decide,
    challengeWindowBlockRanges_example_three 1000 (by decide),
    challengeWindowBlockRanges_count 1000 360000 12000 30000 (by decide) (by decide)
      (by decide)⟩

/-- C14 as stated fails where the run needs more ranges than a machine can hold. With
window 0 (`n = 0`, so `floor(n / 10001) + 1 = 1`) and current block `2 ^ 64 - 10000` the
loop test `startBlock + blockSize` overflows, the loop keeps appending, and the call dies
out of memory on every machine. With window `2 ^ 63` s, block time 1000 ms and current
block `2 ^ 63` (`n = 2 ^ 63 = currentBlock`) nothing overflows, but the
922244979187559 ranges of the result exceed the largest slice the runtime allocates. -/
theorem challengeWindowBlockRanges_count_counterexample :
    (numBlocksToScan 0 12000 ≤ ((18446744073709541616 : Nat) : Int)
      ∧ ∀ maxLen, challengeWindowBlockRanges maxLen 12000 ⟨.ok 18446744073709541616⟩ ⟨.ok 0⟩
          = .panicked "out of memory")
    ∧ (numBlocksToScan 9223372036854775808 1000 = 9223372036854775808
      ∧ (numBlocksToScan 9223372036854775808 1000).toNat / 10001 + 1 = 922244979187559
      ∧ ∀ maxLen, challengeWindowBlockRanges maxLen 1000 ⟨.ok 9223372036854775808⟩
            ⟨.ok 9223372036854775808⟩
          = .panicked "out of memory") := by
  refine ⟨⟨by decide, fun maxLen => ?_⟩, by decide, by decide, fun maxLen => ?_⟩
  · exact challengeWindowBlockRanges_crash maxLen 0 12000 18446744073709541616 (by decide)
      (by decide) (by decide) (fun h => absurd h.1 (by decide))
  · have hcap := capacity_le_maxSliceLen maxLen
    rw [maxSliceLen_eq] at hcap
    have hq : (numBlocksToScan 9223372036854775808 1000).toNat / 10001 + 1
        = 922244979187559 := by decide
    exact challengeWindowBlockRanges_crash maxLen 9223372036854775808 1000
      9223372036854775808 (by decide) (by decide) (by decide)
      (fun h => by rw [hq] at h; omega)

/-! ## The commitment locator -/

theorem int64OfUint64_of_lt (u : Nat) (h : u < 2 ^ 63) : int64OfUint64 u = (u : Int) := by
  have hm : u % 2 ^ 64 = u := Nat.mod_eq_of_lt (by omega)
  unfold int64OfUint64
  rw [hm, if_pos h]

/-- Below `2 ^ 63` the signed test of the code is the unsigned interval test. -/
theorem covers_iff_inInterval (height : Int) (e : BlobstreamXDataCommitmentStored)
    (hs : e.StartBlock < 2 ^ 63) (he : e.EndBlock < 2 ^ 63) :
    covers height e = true ↔ inInterval height e := by
  unfold covers inInterval
  rw [int64OfUint64_of_lt _ hs, int64OfUint64_of_lt _ he]
  simp

theorem find?_congr_mem {α : Type} (p q : α → Bool) :
    ∀ l : List α, (∀ x ∈ l, p x = q x) → l.find? p = l.find? q
  | [], _ => rfl
  | a :: l, h => by
    have ha : p a = q a := h a (List.mem_cons_self a l)
    have hl : l.find? p = l.find? q :=
      find?_congr_mem p q l (fun x hx => h x (List.mem_cons_of_mem a hx))
    simp only [List.find?_cons, ha, hl]

/-- The inner loop returns the first covering event of the iterator. -/
theorem scanEvents_fst (height : Int) :
    ∀ (events : List BlobstreamXDataCommitmentStored) (last : Nat),
      (scanEvents height events last).1 = events.find? (covers height)
  | [], _ => rfl
  | e :: rest, last => by
    by_cases h : covers height e = true
    · simp [scanEvents, h]
    · simp only [scanEvents, h, List.find?_cons]
      exact scanEvents_fst height rest _

/-- Without a covering event the inner loop leaves `lastCommitHeight` at the maximum of
its old value and the `EndBlock`s seen. -/
theorem scanEvents_snd (height : Int) :
    ∀ (events : List BlobstreamXDataCommitmentStored) (last : Nat),
      events.find? (covers height) = none →
      (scanEvents height events last).2 = max last (maxEndBlock events)
  | [], last, _ => by simp [scanEvents, maxEndBlock]
  | e :: rest, last, hnone => by
    have h : ¬ covers height e = true := by
      intro hc
      simp [List.find?_cons, hc] at hnone
    have hrest : rest.find? (covers height) = none := by
      simpa [List.find?_cons, h] using hnone
    simp only [scanEvents, h]
    rw [if_neg (by simp), scanEvents_snd height rest _ hrest]
    simp only [maxEndBlock, List.map_cons, List.foldr_cons]
    split <;> omega

theorem scanRangesLoop_pair (bstream : BlobstreamX) (height : Int) (start stop : Nat)
    (rest : List (List Nat)) (last : Nat) (events : DataCommitmentStoredIterator)
    (hq : bstream.FilterDataCommitmentStored start stop = .ok events) :
    scanRangesLoop bstream height ([start, stop] :: rest) last
      = match events.events.find? (covers height) with
        | some e => .returned (some e) none
        | none =>
          match events.failure with
          | some err => .returned none (some err)
          | none =>
            scanRangesLoop bstream height rest (max last (maxEndBlock events.events)) := by
  have hpair : scanEvents height events.events last
      = (events.events.find? (covers height), (scanEvents height events.events last).2) :=
    Prod.ext (scanEvents_fst height events.events last) rfl
  rw [scanRangesLoop, hq]
  simp only []
  rw [hpair]
  cases hf : events.events.find? (covers height) with
  | some e => simp only []
  | none => simp only [scanEvents_snd height events.events last hf]

/-- An event returned by the outer loop is the first covering event in scan order. -/
theorem scanRangesLoop_returned (bstream : BlobstreamX) (height : Int)
    (e : BlobstreamXDataCommitmentStored) :
    ∀ (ranges : List (List Nat)) (last : Nat),
      scanRangesLoop bstream height ranges last = .returned (some e) none →
      (scannedEvents bstream ranges).find? (covers height) = some e
  | [], last, h => by simp [scanRangesLoop] at h
  | [_] :: _, _, h => by simp [scanRangesLoop] at h
  | (_ :: _ :: _ :: _) :: _, _, h => by simp [scanRangesLoop] at h
  | [] :: _, _, h => by simp [scanRangesLoop] at h
  | [start, stop] :: rest, last, h => by
    cases hq : bstream.FilterDataCommitmentStored start stop with
    | error err => simp [scanRangesLoop, hq] at h
    | ok events =>
      rw [scanRangesLoop_pair bstream height start stop rest last events hq] at h
      simp only [scannedEvents, hq, List.find?_append]
      cases hf : events.events.find? (covers height) with
      | some x =>
        rw [hf] at h
        simp only [Outcome.returned.injEq, Option.some.injEq, and_true] at h
        simp [h]
      | none =>
        rw [hf] at h
        cases hfail : events.failure with
        | some err => simp [hfail] at h
        | none =>
          simp only [hfail] at h
          simpa using scanRangesLoop_returned bstream height e rest _ h

theorem maxEndBlock_append (l₁ l₂ : List BlobstreamXDataCommitmentStored) :
    maxEndBlock (l₁ ++ l₂) = max (maxEndBlock l₁) (maxEndBlock l₂) := by
  induction l₁ with
  | nil => simp [maxEndBlock]
  | cons a l ih =>
    simp only [maxEndBlock, List.cons_append, List.map_cons, List.foldr_cons] at ih ⊢
    rw [ih, max_assoc]

theorem scannedEvents_pair (bstream : BlobstreamX) (start stop : Nat) (rest : List (List Nat))
    (events : DataCommitmentStoredIterator)
    (hq : bstream.FilterDataCommitmentStored start stop = .ok events) :
    scannedEvents bstream ([start, stop] :: rest)
      = events.events ++ scannedEvents bstream rest := by
  simp only [scannedEvents, hq]

/-- When every query succeeds the outer loop returns the first covering event in scan
order, or else the not-found error with the maximum `EndBlock` seen. -/
theorem scanRangesLoop_of_queriesSucceed (bstream : BlobstreamX) (height : Int) :
    ∀ (ranges : List (List Nat)) (last : Nat), queriesSucceed bstream ranges →
      scanRangesLoop bstream height ranges last
        = match (scannedEvents bstream ranges).find? (covers height) with
          | some e => .returned (some e) none
          | none => .returned none (some (.noCommitmentFound height
              (max last (maxEndBlock (scannedEvents bstream ranges)))))
  | [], last, _ => by simp [scanRangesLoop, scannedEvents, maxEndBlock]
  | r :: rest, last, hq => by
    obtain ⟨start, stop, events, rfl, hok, hfail⟩ := hq r (List.mem_cons_self r rest)
    have hrest : queriesSucceed bstream rest := fun x hx => hq x (List.mem_cons_of_mem _ hx)
    rw [scanRangesLoop_pair bstream height start stop rest last events hok,
      scannedEvents_pair bstream start stop rest events hok, List.find?_append]
    cases hf : events.events.find? (covers height) with
    | some e => simp
    | none =>
      simp only [hfail, Option.none_or]
      rw [scanRangesLoop_of_queriesSucceed bstream height rest _ hrest, maxEndBlock_append,
        max_assoc]

theorem GetCommitmentEvent_of_ranges (maxLen : Nat) (blockTime : Int) (eth : EthClient)
    (challenge : Challenge) (bstream : BlobstreamX) (height : Int) (ranges : List (List Nat))
    (hr : challengeWindowBlockRanges maxLen blockTime eth challenge
      = .returned (some ranges) none) :
    GetCommitmentEvent maxLen blockTime eth challenge bstream height
      = scanRangesLoop bstream height ranges 0 := by
  simp [GetCommitmentEvent, hr]

theorem GetCommitmentEvent_example (maxLen : Nat) (hmem : 1 ≤ maxLen) (bstream : BlobstreamX)
    (height : Int) :
    GetCommitmentEvent maxLen 12000 ⟨.ok 20000⟩ ⟨.ok 86400⟩ bstream height
      = scanRangesLoop bstream height [[12800, 20000]] 0 :=
  GetCommitmentEvent_of_ranges _ _ _ _ _ _ _
    (challengeWindowBlockRanges_example maxLen (le_capacity 1 maxLen hmem (by decide)))

/-- C4, amended: whenever `GetCommitmentEvent` returns an event without error for target
height `h`, the event passes the code's test `int64(StartBlock) ≤ h < int64(EndBlock)` and
is the first event in scan order to pass it; when every scanned event has `StartBlock` and
`EndBlock` below `2 ^ 63`, the event satisfies `StartBlock ≤ h < EndBlock` and is the first
event in scan order with this property. -/
theorem GetCommitmentEvent_first_match (maxLen : Nat) (blockTime : Int) (eth : EthClient)
    (challenge : Challenge) (bstream : BlobstreamX) (height : Int)
    (e : BlobstreamXDataCommitmentStored)
    (h : GetCommitmentEvent maxLen blockTime eth challenge bstream height
      = .returned (some e) none) :
    ∃ ranges, challengeWindowBlockRanges maxLen blockTime eth challenge
        = .returned (some ranges) none
      ∧ covers height e = true
      ∧ (scannedEvents bstream ranges).find? (covers height) = some e
      ∧ ((∀ x ∈ scannedEvents bstream ranges, x.StartBlock < 2 ^ 63 ∧ x.EndBlock < 2 ^ 63) →
          inInterval height e
          ∧ (scannedEvents bstream ranges).find? (fun x => decide (inInterval height x))
              = some e) := by
  unfold GetCommitmentEvent at h
  cases hr : challengeWindowBlockRanges maxLen blockTime eth challenge with
  | panicked reason => simp [hr] at h
  | returned value err =>
    cases err with
    | some err => simp [hr] at h
    | none =>
      cases value with
      | none => simp [hr, scanRangesLoop] at h
      | some ranges =>
        simp only [hr, Option.getD_some] at h
        have hfind := scanRangesLoop_returned bstream height e ranges 0 h
        have hcov : covers height e = true := by
          have := List.find?_some hfind
          simpa using this
        refine ⟨ranges, rfl, hcov, hfind, ?_⟩
        intro hb
        have hmem : e ∈ scannedEvents bstream ranges := List.mem_of_find?_eq_some hfind
        refine ⟨(covers_iff_inInterval height e (hb e hmem).1 (hb e hmem).2).mp hcov, ?_⟩
        rw [← hfind]
        apply find?_congr_mem
        intro x hx
        have hiff := covers_iff_inInterval height x (hb x hx).1 (hb x hx).2
        by_cases hc : covers height x = true
        · simp [hc, hiff.mp hc]
        · have hn : ¬ inInterval height x := fun hi => hc (hiff.mpr hi)
          simp [hc, hn]

theorem GetCommitmentEvent_first_match_witness :
    GetCommitmentEvent 1000 12000 ⟨.ok 20000⟩ ⟨.ok 86400⟩
        (blobstreamDelivering [⟨1, 100, 200⟩, ⟨2, 200, 300⟩]) 250
      = .returned (some ⟨2, 200, 300⟩) none
    ∧ ∃ ranges, challengeWindowBlockRanges 1000 12000 ⟨.ok 20000⟩ ⟨.ok 86400⟩
        = .returned (some ranges) none
      ∧ covers 250 ⟨2, 200, 300⟩ = true
      ∧ (scannedEvents (blobstreamDelivering [⟨1, 100, 200⟩, ⟨2, 200, 300⟩]) ranges).find?
          (covers 250) = some ⟨2, 200, 300⟩
      ∧ ((∀ x ∈ scannedEvents (blobstreamDelivering [⟨1, 100, 200⟩, ⟨2, 200, 300⟩]) ranges,
            x.StartBlock < 2 ^ 63 ∧ x.EndBlock < 2 ^ 63) →
          inInterval 250 ⟨2, 200, 300⟩
          ∧ (scannedEvents (blobstreamDelivering [⟨1, 100, 200⟩, ⟨2, 200, 300⟩]) ranges).find?
              (fun x => decide (inInterval 250 x)) = some ⟨2, 200, 300⟩) :=
  have h : GetCommitmentEvent 1000 12000 ⟨.ok 20000⟩ ⟨.ok 86400⟩
      (blobstreamDelivering [⟨1, 100, 200⟩, ⟨2, 200, 300⟩]) 250
        = .returned (some ⟨2, 200, 300⟩) none := by
    rw [GetCommitmentEvent_example 1000 (by decide)]; decide
  ⟨h, GetCommitmentEvent_first_match _ _ _ _ _ _ _ h⟩

/-- C4 as stated fails for block numbers from `2 ^ 63` on, which `int64(...)` turns
negative. With the events `(100, 2 ^ 63 + 5)` and `(200, 300)` delivered in this order
and target height 250, the code returns the second event although the first one also
satisfies `StartBlock ≤ 250 < EndBlock`. With the single event `(2 ^ 63, 300)` and target
height 250 the code returns that event although `StartBlock ≤ 250` is false. -/
theorem GetCommitmentEvent_first_match_counterexample :
    (inInterval 250 ⟨1, 100, 9223372036854775813⟩
      ∧ ∀ maxLen, 1 ≤ maxLen →
        GetCommitmentEvent maxLen 12000 ⟨.ok 20000⟩ ⟨.ok 86400⟩
          (blobstreamDelivering [⟨1, 100, 9223372036854775813⟩, ⟨2, 200, 300⟩]) 250
          = .returned (some ⟨2, 200, 300⟩) none)
    ∧ (¬ inInterval 250 ⟨1, 9223372036854775808, 300⟩
      ∧ ∀ maxLen, 1 ≤ maxLen →
        GetCommitmentEvent maxLen 12000 ⟨.ok 20000⟩ ⟨.ok 86400⟩
          (blobstreamDelivering [⟨1, 9223372036854775808, 300⟩]) 250
          = .returned (some ⟨1, 9223372036854775808, 300⟩) none) := by
  refine ⟨⟨by decide, fun maxLen hmem => ?_⟩, by decide, fun maxLen hmem => ?_⟩
  · rw [GetCommitmentEvent_example maxLen hmem]; decide
  · rw [GetCommitmentEvent_example maxLen hmem]; decide

/-- C5, amended: for every list of scan ranges whose queries all succeed, if every event
returned has `StartBlock` and `EndBlock` below `2 ^ 63`, the events have pairwise disjoint
`[StartBlock, EndBlock)` intervals and the target height lies inside the interval of one of
them, then the scan of `GetCommitmentEvent` returns that event, however the events are
distributed over the ranges. -/
theorem GetCommitmentEvent_returns_covering_event (bstream : BlobstreamX) (height : Int)
    (ranges : List (List Nat)) (e : BlobstreamXDataCommitmentStored)
    (hq : queriesSucceed bstream ranges)
    (hbound : ∀ x ∈ scannedEvents bstream ranges, x.StartBlock < 2 ^ 63 ∧ x.EndBlock < 2 ^ 63)
    (hdisj : (scannedEvents bstream ranges).Pairwise disjointIntervals)
    (he : e ∈ scannedEvents bstream ranges) (hin : inInterval height e) :
    scanRangesLoop bstream height ranges 0 = .returned (some e) none
    ∧ ∀ (maxLen : Nat) (blockTime : Int) (eth : EthClient) (challenge : Challenge),
        challengeWindowBlockRanges maxLen blockTime eth challenge
          = .returned (some ranges) none →
        GetCommitmentEvent maxLen blockTime eth challenge bstream height
          = .returned (some e) none := by
  have hcov : covers height e = true :=
    (covers_iff_inInterval height e (hbound e he).1 (hbound e he).2).mpr hin
  have hfind : (scannedEvents bstream ranges).find? (covers height) = some e := by
    cases hf : (scannedEvents bstream ranges).find? (covers height) with
    | none =>
      rw [List.find?_eq_none] at hf
      exact absurd hcov (hf e he)
    | some x =>
      have hx : x ∈ scannedEvents bstream ranges := List.mem_of_find?_eq_some hf
      have hxc : covers height x = true := by simpa using List.find?_some hf
      have hxin := (covers_iff_inInterval height x (hbound x hx).1 (hbound x hx).2).mp hxc
      by_cases hxe : x = e
      · rw [hxe]
      · have hsymm : Symmetric disjointIntervals := fun a b hab => Or.symm hab
        have hd := hdisj.forall hsymm hx he hxe
        unfold disjointIntervals at hd
        unfold inInterval at hxin hin
        omega
  have hloop : scanRangesLoop bstream height ranges 0 = .returned (some e) none := by
    rw [scanRangesLoop_of_queriesSucceed bstream height ranges 0 hq, hfind]
  refine ⟨hloop, ?_⟩
  intro maxLen blockTime eth challenge hr
  rw [GetCommitmentEvent_of_ranges _ _ _ _ _ _ _ hr, hloop]

theorem queriesSucceed_blobstreamSplit :
    queriesSucceed blobstreamSplit [[0, 10000], [10001, 20000]] := by
  intro r hr
  simp only [List.mem_cons, List.mem_singleton, List.not_mem_nil, or_false] at hr
  rcases hr with rfl | rfl
  · exact ⟨0, 10000, _, rfl, rfl, rfl⟩
  · exact ⟨10001, 20000, _, rfl, rfl, rfl⟩

theorem GetCommitmentEvent_returns_covering_event_witness :
    scanRangesLoop blobstreamSplit 250 [[0, 10000], [10001, 20000]] 0
      = .returned (some ⟨2, 200, 300⟩) none
    ∧ GetCommitmentEvent 1000 12000 ⟨.ok 20000⟩ ⟨.ok 240000⟩ blobstreamSplit 250
      = .returned (some ⟨2, 200, 300⟩) none :=
  have h := GetCommitmentEvent_returns_covering_event blobstreamSplit 250
    [[0, 10000], [10001, 20000]] ⟨2, 200, 300⟩ queriesSucceed_blobstreamSplit
    (by decide) (by decide) (by decide) (by decide)
  ⟨h.1, h.2 1000 12000 ⟨.ok 20000⟩ ⟨.ok 240000⟩
    (challengeWindowBlockRanges_example_two 1000 (by decide))⟩

/-- C5 as stated fails for block numbers from `2 ^ 63` on: the events `(100, 200)` and
`(200, 2 ^ 63 + 300)` have disjoint intervals and target height 250 lies inside the second
one only, yet the code reports that no commitment was found. -/
theorem GetCommitmentEvent_returns_covering_event_counterexample :
    disjointIntervals ⟨1, 100, 200⟩ ⟨2, 200, 9223372036854776108⟩
    ∧ ¬ inInterval 250 ⟨1, 100, 200⟩
    ∧ inInterval 250 ⟨2, 200, 9223372036854776108⟩
    ∧ ∀ maxLen, 1 ≤ maxLen →
      GetCommitmentEvent maxLen 12000 ⟨.ok 20000⟩ ⟨.ok 86400⟩
          (blobstreamDelivering [⟨1, 100, 200⟩, ⟨2, 200, 9223372036854776108⟩]) 250
        = .returned none (some (.noCommitmentFound 250 9223372036854776108)) := by
  refine ⟨by decide, by decide, by decide, fun maxLen hmem => ?_⟩
  rw [GetCommitmentEvent_example maxLen hmem]; decide

/-- C6, amended: for every list of scan ranges whose queries all succeed, if every event
returned has `StartBlock` and `EndBlock` below `2 ^ 63` and the target height lies in no
event's `[StartBlock, EndBlock)` interval, the scan of `GetCommitmentEvent` fails with the
not-found error, which reports the maximum `EndBlock` over all events of all ranges (0
when there are no events). -/
theorem GetCommitmentEvent_not_found (bstream : BlobstreamX) (height : Int)
    (ranges : List (List Nat)) (hq : queriesSucceed bstream ranges)
    (hbound : ∀ x ∈ scannedEvents bstream ranges, x.StartBlock < 2 ^ 63 ∧ x.EndBlock < 2 ^ 63)
    (hno : ∀ x ∈ scannedEvents bstream ranges, ¬ inInterval height x) :
    scanRangesLoop bstream height ranges 0
      = .returned none
          (some (.noCommitmentFound height (maxEndBlock (scannedEvents bstream ranges))))
    ∧ ∀ (maxLen : Nat) (blockTime : Int) (eth : EthClient) (challenge : Challenge),
        challengeWindowBlockRanges maxLen blockTime eth challenge
          = .returned (some ranges) none →
        GetCommitmentEvent maxLen blockTime eth challenge bstream height
          = .returned none
              (some (.noCommitmentFound height
                (maxEndBlock (scannedEvents bstream ranges)))) := by
  have hfind : (scannedEvents bstream ranges).find? (covers height) = none := by
    rw [List.find?_eq_none]
    intro x hx hc
    exact hno x hx ((covers_iff_inInterval height x (hbound x hx).1 (hbound x hx).2).mp hc)
  have hloop : scanRangesLoop bstream height ranges 0
      = .returned none
          (some (.noCommitmentFound height (maxEndBlock (scannedEvents bstream ranges)))) := by
    rw [scanRangesLoop_of_queriesSucceed bstream height ranges 0 hq, hfind]
    simp
  refine ⟨hloop, ?_⟩
  intro maxLen blockTime eth challenge hr
  rw [GetCommitmentEvent_of_ranges _ _ _ _ _ _ _ hr, hloop]

theorem GetCommitmentEvent_not_found_witness :
    maxEndBlock (scannedEvents blobstreamSplit [[0, 10000], [10001, 20000]]) = 300
    ∧ scanRangesLoop blobstreamSplit 350 [[0, 10000], [10001, 20000]] 0
      = .returned none (some (.noCommitmentFound 350
          (maxEndBlock (scannedEvents blobstreamSplit [[0, 10000], [10001, 20000]]))))
    ∧ GetCommitmentEvent 1000 12000 ⟨.ok 20000⟩ ⟨.ok 240000⟩ blobstreamSplit 350
      = .returned none (some (.noCommitmentFound 350
          (maxEndBlock (scannedEvents blobstreamSplit [[0, 10000], [10001, 20000]])))) :=
  have h := GetCommitmentEvent_not_found blobstreamSplit 350 [[0, 10000], [10001, 20000]]
    queriesSucceed_blobstreamSplit (by decide) (by decide)
  ⟨by decide, h.1, h.2 1000 12000 ⟨.ok 20000⟩ ⟨.ok 240000⟩
    (challengeWindowBlockRanges_example_two 1000 (by decide))⟩

/-- C6 as stated fails for block numbers from `2 ^ 63` on. Target height 350 lies in no
interval when the only event is `(2 ^ 63 + 100, 400)`, and target height -5 lies in no
interval when the only event is `(2 ^ 64 - 10, 2 ^ 64 - 1)`; in both cases the code
returns the event instead of the not-found error. -/
theorem GetCommitmentEvent_not_found_counterexample :
    (¬ inInterval 350 ⟨1, 9223372036854775908, 400⟩
      ∧ ∀ maxLen, 1 ≤ maxLen →
        GetCommitmentEvent maxLen 12000 ⟨.ok 20000⟩ ⟨.ok 86400⟩
            (blobstreamDelivering [⟨1, 9223372036854775908, 400⟩]) 350
          = .returned (some ⟨1, 9223372036854775908, 400⟩) none)
    ∧ (¬ inInterval (-5) ⟨1, 18446744073709551606, 18446744073709551615⟩
      ∧ ∀ maxLen, 1 ≤ maxLen →
        GetCommitmentEvent maxLen 12000 ⟨.ok 20000⟩ ⟨.ok 86400⟩
            (blobstreamDelivering [⟨1, 18446744073709551606, 18446744073709551615⟩]) (-5)
          = .returned (some ⟨1, 18446744073709551606, 18446744073709551615⟩) none) := by
  refine ⟨⟨by decide, fun maxLen hmem => ?_⟩, by decide, fun maxLen hmem => ?_⟩
  · rw [GetCommitmentEvent_example maxLen hmem]; decide
  · rw [GetCommitmentEvent_example maxLen hmem]; decide


/-! ## The proof assembler -/

theorem bytes32_some (b node : Bytes) (h : bytes32 b = some node) :
    32 ≤ b.length ∧ node = b.take 32 := by
  unfold bytes32 at h
  by_cases hl : b.length < 32
  · simp [hl] at h
  · simp only [hl, if_false, Option.some.injEq] at h
    exact ⟨by omega, h.symm⟩

theorem sideNodesOf_some :
    ∀ (aunts nodes : List Bytes), sideNodesOf aunts = some nodes →
      (∀ aunt ∈ aunts, 32 ≤ aunt.length) ∧ nodes = aunts.map (List.take 32)
  | [], nodes, h => by
    simp only [sideNodesOf, Option.some.injEq] at h
    subst h
    simp
  | aunt :: rest, nodes, h => by
    simp only [sideNodesOf] at h
    cases hb : bytes32 aunt with
    | none => simp [hb] at h
    | some node =>
      cases hr : sideNodesOf rest with
      | none => simp [hb, hr] at h
      | some ns =>
        simp only [hb, hr, Option.some.injEq] at h
        obtain ⟨h1, h2⟩ := bytes32_some aunt node hb
        obtain ⟨h3, h4⟩ := sideNodesOf_some rest ns hr
        subst h h2 h4
        refine ⟨?_, by simp⟩
        intro a ha
        rcases List.mem_cons.mp ha with rfl | ha
        · exact h1
        · exact h3 a ha

/-- What a successful `GetProof` went through: the three fetches succeeded, the shares
proof verified, both conversions to `[32]byte` went through, and the proof returned is
assembled from those parts. -/
theorem GetProof_success (trpc : HTTP) (pointer : CanonicalStateChainCelestiaPointer)
    (commitment : BlobstreamXDataCommitmentStored)
    (proof : ChallengeDataAvailabilityChallengeDAProof) (err : Option Error)
    (h : (GetProof trpc pointer commitment).2 = .returned (some proof) err) :
    ∃ blockRes sharesProofs dcProof dataRoot sideNodes,
      trpc.Block (int64OfUint64 pointer.Height) = .ok blockRes
      ∧ trpc.ProveShares pointer.Height (bigUint64 (pointer.ShareStart : Int))
          ((bigUint64 (pointer.ShareStart : Int) + pointer.ShareLen % 2 ^ 64) % 2 ^ 64)
          = .ok sharesProofs
      ∧ sharesProofs.VerifyProof = true
      ∧ trpc.DataRootInclusionProof (uint64OfInt64 (int64OfUint64 pointer.Height))
          commitment.StartBlock commitment.EndBlock = .ok dcProof
      ∧ bytes32 blockRes.Block.DataHash = some dataRoot
      ∧ sideNodesOf dcProof.Proof.Aunts = some sideNodes
      ∧ err = none
      ∧ proof =
        { RootNonce := commitment.ProofNonce
          DataRootTuple := { Height := int64OfUint64 pointer.Height, DataRoot := dataRoot }
          Proof :=
            { SideNodes := sideNodes
              Key := dcProof.Proof.Index
              NumLeaves := dcProof.Proof.Total } } := by
  unfold GetProof at h
  simp only [] at h
  cases hb : trpc.Block (int64OfUint64 pointer.Height) with
  | error e =>
    simp only [hb] at h
    exact absurd h (by simp)
  | ok blockRes =>
    simp only [hb] at h
    cases hs : trpc.ProveShares pointer.Height (bigUint64 (pointer.ShareStart : Int))
        ((bigUint64 (pointer.ShareStart : Int) + pointer.ShareLen % 2 ^ 64) % 2 ^ 64) with
    | error e =>
      simp only [hs] at h
      exact absurd h (by simp)
    | ok sharesProofs =>
      simp only [hs] at h
      cases hv : sharesProofs.VerifyProof with
      | false =>
        simp only [hv, Bool.not_false, if_true] at h
        exact absurd h (by simp)
      | true =>
        simp only [hv, Bool.not_true, Bool.false_eq_true, if_false] at h
        cases hd : trpc.DataRootInclusionProof (uint64OfInt64 (int64OfUint64 pointer.Height))
            commitment.StartBlock commitment.EndBlock with
        | error e =>
          simp only [hd] at h
          exact absurd h (by simp)
        | ok dcProof =>
          simp only [hd] at h
          cases hr : bytes32 blockRes.Block.DataHash with
          | none =>
            simp only [hr] at h
            exact absurd h (by simp)
          | some dataRoot =>
            simp only [hr] at h
            cases hn : sideNodesOf dcProof.Proof.Aunts with
            | none =>
              simp only [hn] at h
              exact absurd h (by simp)
            | some sideNodes =>
              simp only [hn, Outcome.returned.injEq, Option.some.injEq] at h
              exact ⟨blockRes, sharesProofs, dcProof, dataRoot, sideNodes, rfl, rfl, hv, rfl,
                hr, hn, h.2.symm, h.1.symm⟩

/-- C7, what the code does at the claim's inputs: whenever the block fetch and the
shares-proof fetch succeed and the shares proof's verification predicate returns false,
`GetProof` sends no request for the data-root inclusion proof and returns no proof, but
the error it returns is `nil`: line 117 returns the `err` of the successful `ProveShares`
call. -/
theorem GetProof_failed_verification (trpc : HTTP)
    (pointer : CanonicalStateChainCelestiaPointer)
    (commitment : BlobstreamXDataCommitmentStored) (blockRes : ResultBlock)
    (sharesProofs : ShareProof)
    (hb : trpc.Block (int64OfUint64 pointer.Height) = .ok blockRes)
    (hs : trpc.ProveShares pointer.Height (bigUint64 (pointer.ShareStart : Int))
        ((bigUint64 (pointer.ShareStart : Int) + pointer.ShareLen % 2 ^ 64) % 2 ^ 64)
        = .ok sharesProofs)
    (hv : sharesProofs.VerifyProof = false) :
    GetProof trpc pointer commitment
      = ([Request.Block (int64OfUint64 pointer.Height),
          Request.ProveShares pointer.Height (bigUint64 (pointer.ShareStart : Int))
            ((bigUint64 (pointer.ShareStart : Int) + pointer.ShareLen % 2 ^ 64) % 2 ^ 64)],
        .returned none none) := by
  unfold GetProof
  simp only [hb, hs, hv, Bool.not_false, if_true, List.singleton_append]

theorem GetProof_failed_verification_witness :
    GetProof (trpcAnswering (List.replicate 32 7) false ⟨4, 1, [List.replicate 32 1]⟩)
        ⟨1000, 3, 5⟩ ⟨7, 900, 1100⟩
      = ([Request.Block 1000, Request.ProveShares 1000 3 8], .returned none none) :=
  GetProof_failed_verification
    (trpcAnswering (List.replicate 32 7) false ⟨4, 1, [List.replicate 32 1]⟩)
    ⟨1000, 3, 5⟩ ⟨7, 900, 1100⟩ ⟨⟨List.replicate 32 7⟩⟩ ⟨false⟩ rfl rfl rfl

/-- C8, amended: whenever `GetProof` succeeds, the proof it returns has `RootNonce` equal
to the commitment's `ProofNonce`, `DataRootTuple.Height` equal to `int64(pointer.Height)`
(the pointer's `Height` when that is below `2 ^ 63`), `DataRootTuple.DataRoot` equal to the
first 32 bytes of the fetched block's data hash (the data hash itself when it is 32 bytes
long), `Proof.Key` equal to the inclusion proof's `Index`, `Proof.NumLeaves` equal to its
`Total`, and `Proof.SideNodes` of the same length and order as its `Aunts`, each side
node being the first 32 bytes of its aunt. -/
theorem GetProof_success_fields (trpc : HTTP) (pointer : CanonicalStateChainCelestiaPointer)
    (commitment : BlobstreamXDataCommitmentStored)
    (proof : ChallengeDataAvailabilityChallengeDAProof)
    (h : (GetProof trpc pointer commitment).2 = .returned (some proof) none) :
    ∃ blockRes dcProof,
      trpc.Block (int64OfUint64 pointer.Height) = .ok blockRes
      ∧ trpc.DataRootInclusionProof (uint64OfInt64 (int64OfUint64 pointer.Height))
          commitment.StartBlock commitment.EndBlock = .ok dcProof
      ∧ proof.RootNonce = commitment.ProofNonce
      ∧ proof.DataRootTuple.Height = int64OfUint64 pointer.Height
      ∧ (pointer.Height < 2 ^ 63 → proof.DataRootTuple.Height = (pointer.Height : Int))
      ∧ proof.DataRootTuple.DataRoot = blockRes.Block.DataHash.take 32
      ∧ (blockRes.Block.DataHash.length = 32 →
          proof.DataRootTuple.DataRoot = blockRes.Block.DataHash)
      ∧ proof.Proof.Key = dcProof.Proof.Index
      ∧ proof.Proof.NumLeaves = dcProof.Proof.Total
      ∧ proof.Proof.SideNodes.length = dcProof.Proof.Aunts.length
      ∧ proof.Proof.SideNodes = dcProof.Proof.Aunts.map (List.take 32) := by
  obtain ⟨blockRes, sharesProofs, dcProof, dataRoot, sideNodes, hb, _, _, hd, hr, hn, _, hp⟩ :=
    GetProof_success trpc pointer commitment proof none h
  obtain ⟨_, hroot⟩ := bytes32_some _ _ hr
  obtain ⟨_, hnodes⟩ := sideNodesOf_some _ _ hn
  subst hp hroot hnodes
  refine ⟨blockRes, dcProof, hb, hd, rfl, rfl, ?_, rfl, ?_, rfl, rfl, by simp, rfl⟩
  · intro hlt
    exact int64OfUint64_of_lt _ hlt
  · intro hlen
    show List.take 32 blockRes.Block.DataHash = blockRes.Block.DataHash
    rw [← hlen, List.take_length]

theorem GetProof_success_fields_witness :
    (GetProof (trpcAnswering (List.replicate 32 7) true
        ⟨4, 1, [List.replicate 32 1, List.replicate 32 2]⟩) ⟨1000, 3, 5⟩ ⟨7, 900, 1100⟩).2
      = .returned (some
          { RootNonce := 7
            DataRootTuple := { Height := 1000, DataRoot := List.replicate 32 7 }
            Proof :=
              { SideNodes := [List.replicate 32 1, List.replicate 32 2]
                Key := 1
                NumLeaves := 4 } }) none
    ∧ ∃ blockRes dcProof,
      (trpcAnswering (List.replicate 32 7) true
          ⟨4, 1, [List.replicate 32 1, List.replicate 32 2]⟩).Block
        (int64OfUint64 1000) = .ok blockRes
      ∧ (trpcAnswering (List.replicate 32 7) true
          ⟨4, 1, [List.replicate 32 1, List.replicate 32 2]⟩).DataRootInclusionProof
        (uint64OfInt64 (int64OfUint64 1000)) 900 1100 = .ok dcProof
      ∧ 7 = 7
      ∧ (1000 : Int) = int64OfUint64 1000
      ∧ (1000 < 2 ^ 63 → (1000 : Int) = ((1000 : Nat) : Int))
      ∧ List.replicate 32 7 = blockRes.Block.DataHash.take 32
      ∧ (blockRes.Block.DataHash.length = 32 → List.replicate 32 7 = blockRes.Block.DataHash)
      ∧ (1 : Int) = dcProof.Proof.Index
      ∧ (4 : Int) = dcProof.Proof.Total
      ∧ [List.replicate 32 (1 : UInt8), List.replicate 32 2].length
          = dcProof.Proof.Aunts.length
      ∧ [List.replicate 32 1, List.replicate 32 2] = dcProof.Proof.Aunts.map (List.take 32) :=
  have h : (GetProof (trpcAnswering (List.replicate 32 7) true
        ⟨4, 1, [List.replicate 32 1, List.replicate 32 2]⟩) ⟨1000, 3, 5⟩ ⟨7, 900, 1100⟩).2
      = .returned (some
          { RootNonce := 7
            DataRootTuple := { Height := 1000, DataRoot := List.replicate 32 7 }
            Proof :=
              { SideNodes := [List.replicate 32 1, List.replicate 32 2]
                Key := 1
                NumLeaves := 4 } }) none := by decide
  ⟨h, GetProof_success_fields _ _ _ _ h⟩

/-- C8 as stated fails in two fields. With pointer height `2 ^ 63` and a fetched data hash
of 33 bytes `GetProof` succeeds, and the proof has `DataRootTuple.Height = -2 ^ 63`, not
the pointer's height, and a `DataRoot` of 32 bytes, not the 33-byte data hash. -/
theorem GetProof_success_fields_counterexample :
    (GetProof (trpcAnswering (List.replicate 33 7) true ⟨4, 1, [List.replicate 32 1]⟩)
        ⟨9223372036854775808, 3, 5⟩ ⟨7, 900, 1100⟩).2
      = .returned (some
          { RootNonce := 7
            DataRootTuple :=
              { Height := -9223372036854775808, DataRoot := List.replicate 32 7 }
            Proof := { SideNodes := [List.replicate 32 1], Key := 1, NumLeaves := 4 } }) none
    ∧ (-9223372036854775808 : Int) ≠ ((9223372036854775808 : Nat) : Int)
    ∧ (List.replicate 32 7 : Bytes) ≠ List.replicate 33 7 := by
  refine ⟨by decide, by decide, by decide⟩

/-- C9, amended: whenever `GetProof` returns a proof, every sibling hash (aunt) of the
inclusion proof has at least 32 bytes, and every side node is exactly the first 32 bytes
of its aunt, so it is 32 bytes long and never padded. Hence an inclusion proof with an
aunt shorter than 32 bytes never yields a proof (the conversion panics), while an aunt
longer than 32 bytes is not rejected but cut to its first 32 bytes. -/
theorem GetProof_side_nodes (trpc : HTTP) (pointer : CanonicalStateChainCelestiaPointer)
    (commitment : BlobstreamXDataCommitmentStored)
    (proof : ChallengeDataAvailabilityChallengeDAProof) (err : Option Error)
    (h : (GetProof trpc pointer commitment).2 = .returned (some proof) err) :
    ∃ dcProof,
      trpc.DataRootInclusionProof (uint64OfInt64 (int64OfUint64 pointer.Height))
          commitment.StartBlock commitment.EndBlock = .ok dcProof
      ∧ (∀ aunt ∈ dcProof.Proof.Aunts, 32 ≤ aunt.length)
      ∧ proof.Proof.SideNodes = dcProof.Proof.Aunts.map (List.take 32)
      ∧ ∀ node ∈ proof.Proof.SideNodes, node.length = 32 := by
  obtain ⟨blockRes, sharesProofs, dcProof, dataRoot, sideNodes, _, _, _, hd, _, hn, _, hp⟩ :=
    GetProof_success trpc pointer commitment proof err h
  obtain ⟨hlen, hnodes⟩ := sideNodesOf_some _ _ hn
  subst hp hnodes
  refine ⟨dcProof, hd, hlen, rfl, ?_⟩
  intro node hnode
  simp only [List.mem_map] at hnode
  obtain ⟨aunt, haunt, rfl⟩ := hnode
  rw [List.length_take]
  exact Nat.min_eq_left (hlen aunt haunt)

theorem GetProof_side_nodes_witness :
    (GetProof (trpcAnswering (List.replicate 32 7) true
        ⟨4, 1, [List.replicate 32 1, List.replicate 40 2]⟩) ⟨1000, 3, 5⟩ ⟨7, 900, 1100⟩).2
      = .returned (some
          { RootNonce := 7
            DataRootTuple := { Height := 1000, DataRoot := List.replicate 32 7 }
            Proof :=
              { SideNodes := [List.replicate 32 1, List.replicate 32 2]
                Key := 1
                NumLeaves := 4 } }) none
    ∧ ∃ dcProof,
      (trpcAnswering (List.replicate 32 7) true
          ⟨4, 1, [List.replicate 32 1, List.replicate 40 2]⟩).DataRootInclusionProof
        (uint64OfInt64 (int64OfUint64 1000)) 900 1100 = .ok dcProof
      ∧ (∀ aunt ∈ dcProof.Proof.Aunts, 32 ≤ aunt.length)
      ∧ [List.replicate 32 1, List.replicate 32 2] = dcProof.Proof.Aunts.map (List.take 32)
      ∧ ∀ node ∈ [List.replicate 32 (1 : UInt8), List.replicate 32 2], node.length = 32 :=
  have h : (GetProof (trpcAnswering (List.replicate 32 7) true
        ⟨4, 1, [List.replicate 32 1, List.replicate 40 2]⟩) ⟨1000, 3, 5⟩ ⟨7, 900, 1100⟩).2
      = .returned (some
          { RootNonce := 7
            DataRootTuple := { Height := 1000, DataRoot := List.replicate 32 7 }
            Proof :=
              { SideNodes := [List.replicate 32 1, List.replicate 32 2]
                Key := 1
                NumLeaves := 4 } }) none := by decide
  ⟨h, GetProof_side_nodes _ _ _ _ _ h⟩

/-- C9 as stated fails for a sibling hash longer than 32 bytes: with the single aunt
`1, 2, ..., 33` (33 bytes) `GetProof` does not fail; it returns a proof whose side node
is the truncated copy `1, 2, ..., 32` of that aunt. -/
theorem GetProof_side_nodes_counterexample :
    ((List.range 33).map (fun i => UInt8.ofNat (i + 1))).length ≠ 32
    ∧ (GetProof (trpcAnswering (List.replicate 32 7) true
        ⟨4, 1, [(List.range 33).map (fun i => UInt8.ofNat (i + 1))]⟩)
        ⟨1000, 3, 5⟩ ⟨7, 900, 1100⟩).2
      = .returned (some
          { RootNonce := 7
            DataRootTuple := { Height := 1000, DataRoot := List.replicate 32 7 }
            Proof :=
              { SideNodes := [(List.range 32).map (fun i => UInt8.ofNat (i + 1))]
                Key := 1
                NumLeaves := 4 } }) none := by
  refine ⟨by decide, by decide⟩

/-- A failed block fetch ends `GetProof` after its first request. -/
theorem GetProof_block_error (trpc : HTTP) (pointer : CanonicalStateChainCelestiaPointer)
    (commitment : BlobstreamXDataCommitmentStored) (err : Error)
    (hb : trpc.Block (int64OfUint64 pointer.Height) = .error err) :
    GetProof trpc pointer commitment
      = ([Request.Block (int64OfUint64 pointer.Height)], .returned none (some err)) := by
  unfold GetProof
  simp only [hb]

/-- A failed shares-proof fetch ends `GetProof` after its second request. -/
theorem GetProof_shares_error (trpc : HTTP) (pointer : CanonicalStateChainCelestiaPointer)
    (commitment : BlobstreamXDataCommitmentStored) (blockRes : ResultBlock) (err : Error)
    (hb : trpc.Block (int64OfUint64 pointer.Height) = .ok blockRes)
    (hs : trpc.ProveShares pointer.Height (bigUint64 (pointer.ShareStart : Int))
        ((bigUint64 (pointer.ShareStart : Int) + pointer.ShareLen % 2 ^ 64) % 2 ^ 64)
        = .error err) :
    GetProof trpc pointer commitment
      = ([Request.Block (int64OfUint64 pointer.Height),
          Request.ProveShares pointer.Height (bigUint64 (pointer.ShareStart : Int))
            ((bigUint64 (pointer.ShareStart : Int) + pointer.ShareLen % 2 ^ 64) % 2 ^ 64)],
        .returned none (some err)) := by
  unfold GetProof
  simp only [hb, hs, List.singleton_append]

/-- The requests of `GetProof` when the shares proof does not verify. -/
theorem GetProof_unverified (trpc : HTTP) (pointer : CanonicalStateChainCelestiaPointer)
    (commitment : BlobstreamXDataCommitmentStored) (blockRes : ResultBlock)
    (sharesProofs : ShareProof)
    (hb : trpc.Block (int64OfUint64 pointer.Height) = .ok blockRes)
    (hs : trpc.ProveShares pointer.Height (bigUint64 (pointer.ShareStart : Int))
        ((bigUint64 (pointer.ShareStart : Int) + pointer.ShareLen % 2 ^ 64) % 2 ^ 64)
        = .ok sharesProofs)
    (hv : sharesProofs.VerifyProof = false) :
    (GetProof trpc pointer commitment).1
      = [Request.Block (int64OfUint64 pointer.Height),
          Request.ProveShares pointer.Height (bigUint64 (pointer.ShareStart : Int))
            ((bigUint64 (pointer.ShareStart : Int) + pointer.ShareLen % 2 ^ 64) % 2 ^ 64)] := by
  unfold GetProof
  simp only [hb, hs, hv, Bool.not_false, if_true, List.singleton_append]

/-- A failed inclusion-proof fetch, made after the shares proof verified, ends `GetProof`
after its third request. -/
theorem GetProof_inclusion_error (trpc : HTTP) (pointer : CanonicalStateChainCelestiaPointer)
    (commitment : BlobstreamXDataCommitmentStored) (blockRes : ResultBlock)
    (sharesProofs : ShareProof) (err : Error)
    (hb : trpc.Block (int64OfUint64 pointer.Height) = .ok blockRes)
    (hs : trpc.ProveShares pointer.Height (bigUint64 (pointer.ShareStart : Int))
        ((bigUint64 (pointer.ShareStart : Int) + pointer.ShareLen % 2 ^ 64) % 2 ^ 64)
        = .ok sharesProofs)
    (hv : sharesProofs.VerifyProof = true)
    (hd : trpc.DataRootInclusionProof (uint64OfInt64 (int64OfUint64 pointer.Height))
        commitment.StartBlock commitment.EndBlock = .error err) :
    GetProof trpc pointer commitment
      = ([Request.Block (int64OfUint64 pointer.Height),
          Request.ProveShares pointer.Height (bigUint64 (pointer.ShareStart : Int))
            ((bigUint64 (pointer.ShareStart : Int) + pointer.ShareLen % 2 ^ 64) % 2 ^ 64),
          Request.DataRootInclusionProof (uint64OfInt64 (int64OfUint64 pointer.Height))
            commitment.StartBlock commitment.EndBlock],
        .returned none (some err)) := by
  unfold GetProof
  simp only [hb, hs, hv, hd, Bool.not_true, Bool.false_eq_true, if_false,
    List.singleton_append, List.cons_append, List.nil_append]

/-- Once the inclusion-proof fetch has succeeded, the three requests of `GetProof` are the
block fetch, the shares-proof fetch and the inclusion-proof fetch. -/
theorem GetProof_sent_all (trpc : HTTP) (pointer : CanonicalStateChainCelestiaPointer)
    (commitment : BlobstreamXDataCommitmentStored) (blockRes : ResultBlock)
    (sharesProofs : ShareProof) (dcProof : ResultDataRootInclusionProof)
    (hb : trpc.Block (int64OfUint64 pointer.Height) = .ok blockRes)
    (hs : trpc.ProveShares pointer.Height (bigUint64 (pointer.ShareStart : Int))
        ((bigUint64 (pointer.ShareStart : Int) + pointer.ShareLen % 2 ^ 64) % 2 ^ 64)
        = .ok sharesProofs)
    (hv : sharesProofs.VerifyProof = true)
    (hd : trpc.DataRootInclusionProof (uint64OfInt64 (int64OfUint64 pointer.Height))
        commitment.StartBlock commitment.EndBlock = .ok dcProof) :
    (GetProof trpc pointer commitment).1
      = [Request.Block (int64OfUint64 pointer.Height),
          Request.ProveShares pointer.Height (bigUint64 (pointer.ShareStart : Int))
            ((bigUint64 (pointer.ShareStart : Int) + pointer.ShareLen % 2 ^ 64) % 2 ^ 64),
          Request.DataRootInclusionProof (uint64OfInt64 (int64OfUint64 pointer.Height))
            commitment.StartBlock commitment.EndBlock] := by
  unfold GetProof
  simp only [hb, hs, hv, hd, Bool.not_true, Bool.false_eq_true, if_false,
    List.singleton_append, List.cons_append, List.nil_append]
  cases bytes32 blockRes.Block.DataHash with
  | none => rfl
  | some dataRoot =>
    cases sideNodesOf dcProof.Proof.Aunts with
    | none => rfl
    | some sideNodes => rfl

/-- Every fetch `GetProof` makes that is answered with an error ends the call with no
proof and exactly that error. -/
theorem GetProof_sent_error (trpc : HTTP) (pointer : CanonicalStateChainCelestiaPointer)
    (commitment : BlobstreamXDataCommitmentStored) (r : Request) (err : Error)
    (hr : r ∈ (GetProof trpc pointer commitment).1) (he : fetchError trpc r = some err) :
    (GetProof trpc pointer commitment).2 = .returned none (some err) := by
  cases hb : trpc.Block (int64OfUint64 pointer.Height) with
  | error e =>
    rw [GetProof_block_error trpc pointer commitment e hb] at hr ⊢
    simp only [List.mem_singleton] at hr
    subst hr
    simp only [fetchError, hb, Option.some.injEq] at he
    rw [he]
  | ok blockRes =>
    cases hs : trpc.ProveShares pointer.Height (bigUint64 (pointer.ShareStart : Int))
        ((bigUint64 (pointer.ShareStart : Int) + pointer.ShareLen % 2 ^ 64) % 2 ^ 64) with
    | error e =>
      rw [GetProof_shares_error trpc pointer commitment blockRes e hb hs] at hr ⊢
      simp only [List.mem_cons, List.mem_singleton, List.not_mem_nil, or_false] at hr
      rcases hr with rfl | rfl
      · simp only [fetchError, hb] at he; cases he
      · simp only [fetchError, hs, Option.some.injEq] at he
        rw [he]
    | ok sharesProofs =>
      cases hv : sharesProofs.VerifyProof with
      | false =>
        rw [GetProof_unverified trpc pointer commitment blockRes sharesProofs hb hs hv] at hr
        simp only [List.mem_cons, List.mem_singleton, List.not_mem_nil, or_false] at hr
        rcases hr with rfl | rfl
        · simp only [fetchError, hb] at he; cases he
        · simp only [fetchError, hs] at he; cases he
      | true =>
        cases hd : trpc.DataRootInclusionProof (uint64OfInt64 (int64OfUint64 pointer.Height))
            commitment.StartBlock commitment.EndBlock with
        | error e =>
          rw [GetProof_inclusion_error trpc pointer commitment blockRes sharesProofs e
            hb hs hv hd] at hr ⊢
          simp only [List.mem_cons, List.mem_singleton, List.not_mem_nil, or_false] at hr
          rcases hr with rfl | rfl | rfl
          · simp only [fetchError, hb] at he; cases he
          · simp only [fetchError, hs] at he; cases he
          · simp only [fetchError, hd, Option.some.injEq] at he
            rw [he]
        | ok dcProof =>
          rw [GetProof_sent_all trpc pointer commitment blockRes sharesProofs dcProof
            hb hs hv hd] at hr
          simp only [List.mem_cons, List.mem_singleton, List.not_mem_nil, or_false] at hr
          rcases hr with rfl | rfl | rfl
          · simp only [fetchError, hb] at he; cases he
          · simp only [fetchError, hs] at he; cases he
          · simp only [fetchError, hd] at he; cases he

/-- C11: if a fetch that `GetProof` makes (the block fetch, the shares-proof fetch or the
data-root inclusion-proof fetch) returns an error, `GetProof` returns no proof and exactly
that error. A failed block fetch is reported whatever the two later fetches would have
returned, a failed shares-proof fetch whatever the inclusion-proof fetch would have
returned, and a failed inclusion-proof fetch is reported once the two earlier fetches
succeeded and the shares proof verified. -/
theorem GetProof_fetch_errors (trpc : HTTP) (pointer : CanonicalStateChainCelestiaPointer)
    (commitment : BlobstreamXDataCommitmentStored) :
    (∀ r ∈ (GetProof trpc pointer commitment).1, ∀ err, fetchError trpc r = some err →
        (GetProof trpc pointer commitment).2 = .returned none (some err))
    ∧ (∀ err, trpc.Block (int64OfUint64 pointer.Height) = .error err →
        ∀ proveShares inclusionProof,
          GetProof ⟨trpc.Block, proveShares, inclusionProof⟩ pointer commitment
            = ([Request.Block (int64OfUint64 pointer.Height)], .returned none (some err)))
    ∧ (∀ blockRes err, trpc.Block (int64OfUint64 pointer.Height) = .ok blockRes →
        trpc.ProveShares pointer.Height (bigUint64 (pointer.ShareStart : Int))
          ((bigUint64 (pointer.ShareStart : Int) + pointer.ShareLen % 2 ^ 64) % 2 ^ 64)
          = .error err →
        ∀ inclusionProof,
          GetProof ⟨trpc.Block, trpc.ProveShares, inclusionProof⟩ pointer commitment
            = ([Request.Block (int64OfUint64 pointer.Height),
                Request.ProveShares pointer.Height (bigUint64 (pointer.ShareStart : Int))
                  ((bigUint64 (pointer.ShareStart : Int) + pointer.ShareLen % 2 ^ 64)
                    % 2 ^ 64)],
              .returned none (some err)))
    ∧ (∀ blockRes sharesProofs err,
        trpc.Block (int64OfUint64 pointer.Height) = .ok blockRes →
        trpc.ProveShares pointer.Height (bigUint64 (pointer.ShareStart : Int))
          ((bigUint64 (pointer.ShareStart : Int) + pointer.ShareLen % 2 ^ 64) % 2 ^ 64)
          = .ok sharesProofs →
        sharesProofs.VerifyProof = true →
        trpc.DataRootInclusionProof (uint64OfInt64 (int64OfUint64 pointer.Height))
          commitment.StartBlock commitment.EndBlock = .error err →
        (GetProof trpc pointer commitment).2 = .returned none (some err)) := by
  refine ⟨?_, ?_, ?_, ?_⟩
  · intro r hr err he
    exact GetProof_sent_error trpc pointer commitment r err hr he
  · intro err hb proveShares inclusionProof
    exact GetProof_block_error ⟨trpc.Block, proveShares, inclusionProof⟩ pointer commitment
      err hb
  · intro blockRes err hb hs inclusionProof
    exact GetProof_shares_error ⟨trpc.Block, trpc.ProveShares, inclusionProof⟩ pointer
      commitment blockRes err hb hs
  · intro blockRes sharesProofs err hb hs hv hd
    rw [GetProof_inclusion_error trpc pointer commitment blockRes sharesProofs err hb hs hv hd]

theorem GetProof_fetch_errors_witness :
    (GetProof (trpcConstant (.error (.rpc "no block")) (.ok ⟨true⟩) (.ok ⟨⟨4, 1, []⟩⟩))
        ⟨1000, 3, 5⟩ ⟨7, 900, 1100⟩).2 = .returned none (some (.rpc "no block"))
    ∧ (GetProof (trpcConstant (.ok ⟨⟨List.replicate 32 7⟩⟩) (.error (.rpc "no shares"))
        (.ok ⟨⟨4, 1, []⟩⟩)) ⟨1000, 3, 5⟩ ⟨7, 900, 1100⟩).2
      = .returned none (some (.rpc "no shares"))
    ∧ (GetProof (trpcConstant (.ok ⟨⟨List.replicate 32 7⟩⟩) (.ok ⟨true⟩)
        (.error (.rpc "no inclusion proof"))) ⟨1000, 3, 5⟩ ⟨7, 900, 1100⟩).2
      = .returned none (some (.rpc "no inclusion proof")) :=
  ⟨(GetProof_fetch_errors _ _ _).1 (Request.Block 1000) (by decide) _ rfl,
    (GetProof_fetch_errors _ _ _).1 (Request.ProveShares 1000 3 8) (by decide) _ rfl,
    (GetProof_fetch_errors _ _ _).1 (Request.DataRootInclusionProof 1000 900 1100)
      (by decide) _ rfl⟩


/-! ## First match, signed comparison, well-formed ranges -/

/-- A scan that returns an event returns it also when the list of ranges is extended and
the contract answers differently outside the ranges of the original list. -/
theorem scanRangesLoop_extend (bstream other : BlobstreamX) (height : Int)
    (e : BlobstreamXDataCommitmentStored) (more : List (List Nat)) :
    ∀ (ranges : List (List Nat)) (last : Nat),
      scanRangesLoop bstream height ranges last = .returned (some e) none →
      (∀ start stop, [start, stop] ∈ ranges →
        other.FilterDataCommitmentStored start stop
          = bstream.FilterDataCommitmentStored start stop) →
      scanRangesLoop other height (ranges ++ more) last = .returned (some e) none
  | [], last, h, _ => by simp [scanRangesLoop] at h
  | [_] :: _, _, h, _ => by simp [scanRangesLoop] at h
  | (_ :: _ :: _ :: _) :: _, _, h, _ => by simp [scanRangesLoop] at h
  | [] :: _, _, h, _ => by simp [scanRangesLoop] at h
  | [start, stop] :: rest, last, h, hsame => by
    have hq' := hsame start stop (List.mem_cons_self _ _)
    have hrest : ∀ a b, [a, b] ∈ rest →
        other.FilterDataCommitmentStored a b = bstream.FilterDataCommitmentStored a b :=
      fun a b hab => hsame a b (List.mem_cons_of_mem _ hab)
    cases hq : bstream.FilterDataCommitmentStored start stop with
    | error err => simp [scanRangesLoop, hq] at h
    | ok events =>
      rw [scanRangesLoop_pair bstream height start stop rest last events hq] at h
      rw [List.cons_append,
        scanRangesLoop_pair other height start stop (rest ++ more) last events (hq'.trans hq)]
      cases hf : events.events.find? (covers height) with
      | some x =>
        rw [hf] at h
        exact h
      | none =>
        rw [hf] at h
        cases hfail : events.failure with
        | some err => simp [hfail] at h
        | none =>
          simp only [hfail] at h ⊢
          exact scanRangesLoop_extend bstream other height e more rest _ h hrest

/-- C13: the search of `GetCommitmentEvent` stops at the first match. If scanning a list of
ranges returns an event `e`, then scanning that list extended by any further ranges returns
the same `e`, whatever the queries of the added ranges return (the contract may answer
anything outside the ranges of the original list), including query errors and other
matching events. -/
theorem GetCommitmentEvent_stops_at_first_match (bstream : BlobstreamX) (height : Int)
    (ranges : List (List Nat)) (last : Nat) (e : BlobstreamXDataCommitmentStored)
    (h : scanRangesLoop bstream height ranges last = .returned (some e) none) :
    ∀ (more : List (List Nat)) (other : BlobstreamX),
      (∀ start stop, [start, stop] ∈ ranges →
        other.FilterDataCommitmentStored start stop
          = bstream.FilterDataCommitmentStored start stop) →
      scanRangesLoop other height (ranges ++ more) last = .returned (some e) none :=
  fun more other hsame => scanRangesLoop_extend bstream other height e more ranges last h hsame

theorem GetCommitmentEvent_stops_at_first_match_witness :
    scanRangesLoop blobstreamSplit 150 [[0, 10000]] 0 = .returned (some ⟨1, 100, 200⟩) none
    ∧ scanRangesLoop blobstreamFailingLater 150 [[0, 10000], [10001, 20000], [7]] 0
        = .returned (some ⟨1, 100, 200⟩) none
    ∧ covers 150 ⟨3, 120, 180⟩ = true
    ∧ scanRangesLoop blobstreamMatchingLater 150 [[0, 10000], [10001, 20000]] 0
        = .returned (some ⟨1, 100, 200⟩) none :=
  have h : scanRangesLoop blobstreamSplit 150 [[0, 10000]] 0
      = .returned (some ⟨1, 100, 200⟩) none := by decide
  ⟨h,
    GetCommitmentEvent_stops_at_first_match blobstreamSplit 150 [[0, 10000]] 0 _ h
      [[10001, 20000], [7]] blobstreamFailingLater (by
        intro start stop hm
        simp only [List.mem_singleton, List.cons.injEq, and_true] at hm
        obtain ⟨rfl, rfl⟩ := hm
        rfl),
    by decide,
    GetCommitmentEvent_stops_at_first_match blobstreamSplit 150 [[0, 10000]] 0 _ h
      [[10001, 20000]] blobstreamMatchingLater (by
        intro start stop hm
        simp only [List.mem_singleton, List.cons.injEq, and_true] at hm
        obtain ⟨rfl, rfl⟩ := hm
        rfl)⟩

/-- C15: the coverage test of `GetCommitmentEvent`, which compares `int64(e.StartBlock)`
and `int64(e.EndBlock)` with the target height, agrees with the unsigned interval test
`StartBlock ≤ h < EndBlock` for every target height `h` (in particular every `h ≥ 0`) and
every event whose `StartBlock` and `EndBlock` are both below `2 ^ 63`. -/
theorem covers_agrees_below_2_63 (height : Int) (e : BlobstreamXDataCommitmentStored)
    (hs : e.StartBlock < 2 ^ 63) (he : e.EndBlock < 2 ^ 63) :
    covers height e = decide (inInterval height e) := by
  have h := covers_iff_inInterval height e hs he
  by_cases hc : covers height e = true
  · rw [hc, decide_eq_true (h.mp hc)]
  · have hn : ¬ inInterval height e := fun hi => hc (h.mpr hi)
    rw [decide_eq_false hn]
    simpa using hc

theorem covers_agrees_below_2_63_witness :
    (200 : Nat) < 2 ^ 63 ∧ (300 : Nat) < 2 ^ 63
    ∧ covers 250 ⟨2, 200, 300⟩ = true
    ∧ covers 250 ⟨2, 200, 300⟩ = decide (inInterval 250 ⟨2, 200, 300⟩)
    ∧ covers 300 ⟨2, 200, 300⟩ = decide (inInterval 300 ⟨2, 200, 300⟩) :=
  ⟨by decide, by decide, by decide,
    covers_agrees_below_2_63 250 ⟨2, 200, 300⟩ (by decide) (by decide),
    covers_agrees_below_2_63 300 ⟨2, 200, 300⟩ (by decide) (by decide)⟩

/-- On a list of two-element ranges the scan returns the invalid-block-range error value
only when an event iterator handed it back: the branch of line 33 is not taken. -/
theorem scanRangesLoop_invalidBlockRange (bstream : BlobstreamX) (height : Int)
    (value : Option commitment) :
    ∀ (ranges : List (List Nat)) (last : Nat), (∀ r ∈ ranges, r.length = 2) →
      scanRangesLoop bstream height ranges last = .returned value (some .invalidBlockRange) →
      ∃ start stop events, bstream.FilterDataCommitmentStored start stop = .ok events
        ∧ events.failure = some .invalidBlockRange
  | [], last, _, h => by simp [scanRangesLoop] at h
  | [_] :: rest, _, hlen, _ => by
    have := hlen _ (List.mem_cons_self _ rest)
    simp at this
  | (_ :: _ :: _ :: _) :: rest, _, hlen, _ => by
    have := hlen _ (List.mem_cons_self _ rest)
    simp at this
  | [] :: rest, _, hlen, _ => by
    have := hlen _ (List.mem_cons_self _ rest)
    simp at this
  | [start, stop] :: rest, last, hlen, h => by
    have hrest : ∀ r ∈ rest, r.length = 2 := fun r hr => hlen r (List.mem_cons_of_mem _ hr)
    cases hq : bstream.FilterDataCommitmentStored start stop with
    | error err => simp [scanRangesLoop, hq] at h
    | ok events =>
      rw [scanRangesLoop_pair bstream height start stop rest last events hq] at h
      cases hf : events.events.find? (covers height) with
      | some x => simp [hf] at h
      | none =>
        rw [hf] at h
        cases hfail : events.failure with
        | some err =>
          simp only [hfail, Outcome.returned.injEq, Option.some.injEq] at h
          exact ⟨start, stop, events, hq, by rw [hfail, h.2]⟩
        | none =>
          simp only [hfail] at h
          exact scanRangesLoop_invalidBlockRange bstream height value rest _ hrest h

/-- C16: every range produced by `challengeWindowBlockRanges` has exactly two elements, so
when `GetCommitmentEvent` scans the ranges it derived itself, the invalid-block-range branch
(line 33) is unreachable: the call ends with that error value only if an event iterator
handed the value back through `events.Error()`. -/
theorem challengeWindowBlockRanges_two_elements (maxLen : Nat) (blockTime : Int)
    (eth : EthClient) (challenge : Challenge) :
    (∀ ranges err, challengeWindowBlockRanges maxLen blockTime eth challenge
        = .returned (some ranges) err → ∀ r ∈ ranges, r.length = 2)
    ∧ (∀ (bstream : BlobstreamX) (height : Int) (value : Option commitment),
        GetCommitmentEvent maxLen blockTime eth challenge bstream height
          = .returned value (some .invalidBlockRange) →
        ∃ start stop events, bstream.FilterDataCommitmentStored start stop = .ok events
          ∧ events.failure = some .invalidBlockRange) := by
  have hpairs : ∀ ranges err, challengeWindowBlockRanges maxLen blockTime eth challenge
      = .returned (some ranges) err → ∀ r ∈ ranges, r.length = 2 := by
    intro ranges err h
    unfold challengeWindowBlockRanges at h
    cases hw : challenge.ChallengeWindow with
    | error e => simp [hw] at h
    | ok window =>
      by_cases hbt : blockTime = 0
      · simp [hw, hbt] at h
      · cases hb : eth.BlockNumber with
        | error e => simp [hw, hbt, hb] at h
        | ok currentBlock =>
          simp only [hw, hbt, hb, if_false] at h
          rw [chunkLoop_outcome] at h
          split_ifs at h with hfit
          simp only [Outcome.returned.injEq, Option.some.injEq] at h
          rw [← h.1]
          exact idealRanges_pairs _ _ [] (by simp)
  refine ⟨hpairs, ?_⟩
  intro bstream height value h
  unfold GetCommitmentEvent at h
  cases hr : challengeWindowBlockRanges maxLen blockTime eth challenge with
  | panicked reason => simp [hr] at h
  | returned v err =>
    cases err with
    | some err => simp [hr] at h
    | none =>
      cases v with
      | none => simp [hr, scanRangesLoop] at h
      | some ranges =>
        simp only [hr, Option.getD_some] at h
        exact scanRangesLoop_invalidBlockRange bstream height value ranges 0
          (hpairs ranges none hr) h

theorem challengeWindowBlockRanges_two_elements_witness :
    (∀ r ∈ [[0, 10000], [10001, 20001], [20002, 30000]], r.length = 2)
    ∧ ∀ (bstream : BlobstreamX) (height : Int) (value : Option commitment),
        GetCommitmentEvent 1000 12000 ⟨.ok 30000⟩ ⟨.ok 360000⟩ bstream height
          = .returned value (some .invalidBlockRange) →
        ∃ start stop events, bstream.FilterDataCommitmentStored start stop = .ok events
          ∧ events.failure = some .invalidBlockRange :=
  ⟨(challengeWindowBlockRanges_two_elements 1000 12000 ⟨.ok 30000⟩ ⟨.ok 360000⟩).1 _ none
      (challengeWindowBlockRanges_example_three 1000 (by decide)),
    (challengeWindowBlockRanges_two_elements 1000 12000 ⟨.ok 30000⟩ ⟨.ok 360000⟩).2⟩

end DAProofExample
